import Mathlib

/-!
# go-oci8 `statement.go`: a shallow embedding

The statement pipeline of the driver (`bind`, `query`, `exec`, `Close`,
`outputBoundParameters`) is translated function by function.

* Native calls (OCI) are answered by explicit answer records (`BindNative`,
  `ColNative`, `ExecNative`): the status each call returns and the values it
  reports.  The calls that matter are traced in `World.log`.
* C memory obtained with `malloc`, `calloc`, `CString`, `CByte` or as the extra
  bytes of a descriptor is an explicit heap of blocks (`Heap`).  Handles that
  the native library owns (parameter descriptors, bind and define handles) are
  not blocks of this heap.
* Go `int` and C `size_t` are 64 bit, `ub4`/`sb4` 32 bit, `ub2` 16 bit; the
  conversions between them wrap.
* `query` and `exec` are translated as the calling goroutine runs them, with
  `close(done)` traced as an event; the body of the watcher goroutine they
  start is translated separately (`watcher`), as a function of what its two
  `select` statements meet.
-/

namespace Oci8

/-! ## Native constants (values of `oci.h` / `ocidfn.h`) -/

def OCI_SUCCESS : Int := 0
def OCI_SUCCESS_WITH_INFO : Int := 1
def OCI_ERROR : Int := -1
def OCI_DEFAULT : Nat := 0
def OCI_COMMIT_ON_SUCCESS : Nat := 32
def OCI_STMT_SELECT : Nat := 1

def SQLT_CHR : Nat := 1
def SQLT_NUM : Nat := 2
def SQLT_INT : Nat := 3
def SQLT_STR : Nat := 5
def SQLT_LNG : Nat := 8
def SQLT_VCS : Nat := 9
def SQLT_DAT : Nat := 12
def SQLT_BFLOAT : Nat := 21
def SQLT_BDOUBLE : Nat := 22
def SQLT_BIN : Nat := 23
def SQLT_AFC : Nat := 96
def SQLT_AVC : Nat := 97
def SQLT_IBFLOAT : Nat := 100
def SQLT_IBDOUBLE : Nat := 101
def SQLT_RDD : Nat := 104
def SQLT_CLOB : Nat := 112
def SQLT_BLOB : Nat := 113
def SQLT_TIMESTAMP : Nat := 187
def SQLT_TIMESTAMP_TZ : Nat := 188
def SQLT_INTERVAL_YM : Nat := 189
def SQLT_INTERVAL_DS : Nat := 190
def SQLT_TIMESTAMP_LTZ : Nat := 232

/-- Modelled from the spec: the constant `sizeOfNilPointer` is declared outside
the source file; it is the size of a pointer ("pointer-sized headers"), 8 on a
64-bit platform. -/
def sizeOfNilPointer : Nat := 8

/-! ## Machine integers -/

/-- Go `int` / `int64`: two's complement wrap to 64 bits. -/
def wrapInt64 (x : Int) : Int := (x + 2 ^ 63) % 2 ^ 64 - 2 ^ 63

/-- The conversion `C.sb4(x)`: wrap to a signed 32-bit integer. -/
def toSb4 (x : Int) : Int := (x + 2 ^ 31) % 2 ^ 32 - 2 ^ 31

/-- The conversion `C.size_t(x)` of a Go `int` on a 64-bit platform. -/
def toSizeT (x : Int) : Nat := (x % 2 ^ 64).toNat

/-- A value of the C type `ub4`. -/
def toUb4 (x : Nat) : Nat := x % 2 ^ 32

/-! ## Go values -/

/-- A Go string: its bytes. -/
abbrev GoString := List Nat

/-- The byte of an ASCII character. -/
def ch (c : Char) : Nat := c.toNat

/-- The integer types named in the `case int, int8, ...` arm of `bind`. -/
inductive IntKind
  | int | int8 | int16 | int32 | int64
  | uint | uint8 | uint16 | uint32 | uint64 | uintptr
  deriving DecidableEq, Repr

/-- The size `encoding/binary` assigns to the type: only fixed-size types have
one ("a fixed-size arithmetic type (bool, int8, uint8, int16, float32, ...)");
`int`, `uint` and `uintptr` are not fixed-size and `binary.Write` rejects them. -/
def IntKind.binarySize : IntKind → Option Nat
  | .int8 | .uint8 => some 1
  | .int16 | .uint16 => some 2
  | .int32 | .uint32 => some 4
  | .int64 | .uint64 => some 8
  | .int | .uint | .uintptr => none

/-- The natural byte width (`unsafe.Sizeof`) of the type on a 64-bit platform. -/
def IntKind.width : IntKind → Nat
  | .int8 | .uint8 => 1
  | .int16 | .uint16 => 2
  | .int32 | .uint32 => 4
  | .int64 | .uint64 | .int | .uint | .uintptr => 8

/-- The fields of a `time.Time` that `bind` reads. -/
structure GoTime where
  year : Int
  month : Int
  day : Int
  hour : Int
  minute : Int
  second : Int
  nanosecond : Int
  zone : GoString
  offset : Int
  deriving DecidableEq, Repr

/-- The values of the type `driver.Value`: nil, `[]byte`, `time.Time`, `string`,
`int64`, `float64` and `bool`. -/
inductive DriverValue
  | nil
  | bytes (b : List Nat)
  | time (t : GoTime)
  | str (s : GoString)
  | int64 (v : Int)
  | float64 (bits : Nat)
  | bool (b : Bool)
  deriving DecidableEq, Repr

/-- What `driver.DefaultParameterConverter.ConvertValue` answers for a value
whose dynamic type is none of the types named in the switch of `bind` (a named
string, integer, float or bool type, a `driver.Valuer`, a pointer to a pointer,
a decimal, a struct, ...): an error, a driver value (found by reflect kind, by
the `Value` method or through the pointer chain), or the value itself (a
decimal is returned as it is). -/
inductive Converted
  | fails
  | value (v : DriverValue)
  | same
  deriving DecidableEq, Repr

/-- The dynamic values `bind` dispatches on (the arms of its type switch).
`other` is a value of any other dynamic type, carried with its `%v` text and
with the answer of the default parameter converter for it. -/
inductive GoValue
  | nil
  | bytes (b : List Nat)
  | time (t : GoTime)
  | str (s : GoString)
  | integer (k : IntKind) (v : Int)
  | float32 (bits : Nat)
  | float64 (bits : Nat)
  | bool (b : Bool)
  | other (repr : GoString) (conv : Converted)
  deriving DecidableEq, Repr

/-- A driver value as a Go value. -/
def DriverValue.toGo : DriverValue → GoValue
  | .nil => GoValue.nil
  | .bytes b => GoValue.bytes b
  | .time t => GoValue.time t
  | .str s => GoValue.str s
  | .int64 v => GoValue.integer IntKind.int64 v
  | .float64 bits => GoValue.float64 bits
  | .bool b => GoValue.bool b

/-- The `Dest` of an output parameter (`sql.Out`) when it is not the nil
interface: a typed nil pointer (`slot` tells whether its type is one of the
pointer types `outputBoundParameters` has a case for), a pointer to a caller
variable (at `addr`, holding `elem` when `bind` runs), or any other value
(a non-pointer value, or a pointer that is not to such a variable, as an
`other` value). -/
inductive Dest
  | nilPtr (slot : Bool)
  | ptr (addr : Nat) (elem : GoValue)
  | val (v : GoValue)
  deriving DecidableEq, Repr

/-- Modelled from the spec: `handleOutput` is not in the source file; an
argument is either a plain input value or a value "wrapped to signal bind for
later read-back" (`sql.Out`), which `handleOutput` recognises.  `out none` has
the nil interface as `Dest`. -/
inductive ArgValue
  | plain (v : GoValue)
  | out (dest : Option Dest)
  deriving DecidableEq, Repr

/-- The type `namedValue`. -/
structure namedValue where
  Name : GoString
  Ordinal : Int
  Value : ArgValue
  deriving DecidableEq, Repr

/-- The errors the statement code returns. -/
inductive GoError
  | native (rv : Int)
  | convert
  | binaryColumn (i : Nat)
  deriving DecidableEq, Repr

/-- Modelled from the spec: `OCI8Conn.getError` is not in the source file; the
native error interface produces, from a status code, a structured error that
carries the code, and the distinguished success code gives no error. -/
def getError (rv : Int) : Option GoError :=
  if rv = OCI_SUCCESS then none else some (GoError.native rv)

/-! ## Little-endian encoding and the Go library calls used by `bind` -/

/-- The `w` low bytes of `n`, least significant first. -/
def leBytes : Nat → Nat → List Nat
  | 0, _ => []
  | w + 1, n => n % 256 :: leBytes w (n / 256)

/-- The little-endian encoding of a (possibly negative) integer in `w` bytes,
two's complement. -/
def leEncode (w : Nat) (v : Int) : List Nat := leBytes w (v % 2 ^ (8 * w)).toNat

/-- Widening of a `float32` bit pattern to the `float64` bit pattern of the
same value (IEEE 754; a NaN is quieted). -/
def float32to64 (b : Nat) : Nat :=
  let s := b / 2 ^ 31 % 2
  let e := b / 2 ^ 23 % 256
  let m := b % 2 ^ 23
  if e = 255 then
    s * 2 ^ 63 + 2047 * 2 ^ 52 + (if m = 0 then 0 else 2 ^ 51 + m * 2 ^ 29 % 2 ^ 51)
  else if e = 0 then
    if m = 0 then s * 2 ^ 63
    else
      let k := Nat.log2 m
      s * 2 ^ 63 + (k + 874) * 2 ^ 52 + (m - 2 ^ k) * 2 ^ (52 - k)
  else s * 2 ^ 63 + (e + 896) * 2 ^ 52 + m * 2 ^ 29

/-- The call `binary.Write(&buffer, binary.LittleEndian, v)` on the values of the
integer and float arms: the bytes written, or the error for a type that is not
fixed-size. -/
def binaryWrite : GoValue → Option (List Nat)
  | .integer k v => (k.binarySize).map (fun w => leEncode w v)
  | .float32 bits => some (leBytes 4 bits)
  | .float64 bits => some (leBytes 8 bits)
  | .bool b => some [if b then 1 else 0]
  | _ => none

/-- The non-pointer part of `driver.DefaultParameterConverter.ConvertValue`: a
driver value is returned as it is, the integer and float kinds are widened to
`int64` and `float64` (`uint64` with the high bit set and `uintptr` are
refused), and a value of any other type gets the answer it carries. -/
def convertBase : GoValue → Except GoError GoValue
  | .nil => .ok .nil
  | .bytes b => .ok (.bytes b)
  | .time t => .ok (.time t)
  | .str s => .ok (.str s)
  | .bool b => .ok (.bool b)
  | .float64 bits => .ok (.float64 bits)
  | .float32 bits => .ok (.float64 (float32to64 bits))
  | .integer .uint64 v => if v ≥ 2 ^ 63 then .error .convert else .ok (.integer .int64 v)
  | .integer .uintptr _ => .error .convert
  | .integer _ v => .ok (.integer .int64 (wrapInt64 v))
  | .other _ .fails => .error .convert
  | .other _ (.value v) => .ok v.toGo
  | .other repr .same => .ok (.other repr .same)

/-- The call `driver.DefaultParameterConverter.ConvertValue(out.Dest)`: the nil
interface is a value already, a nil pointer converts to nil, a pointer is
followed. -/
def convertValue : Option Dest → Except GoError GoValue
  | none => .ok .nil
  | some (.nilPtr _) => .ok .nil
  | some (.ptr _ elem) => convertBase elem
  | some (.val v) => convertBase v

/-! ## C memory -/

/-- An allocated C block: its address, its size in bytes and the bytes written
to it so far. -/
structure Block where
  addr : Nat
  size : Nat
  data : List Nat
  deriving DecidableEq, Repr

/-- The C heap: the live blocks and the next fresh address (never 0). -/
structure Heap where
  next : Nat
  live : List Block
  deriving DecidableEq, Repr

/-- An empty heap. -/
def Heap.empty : Heap := { next := 1, live := [] }

/-- The call `C.malloc(size)` followed by a copy of `data` into the block. -/
def Heap.alloc (h : Heap) (size : Nat) (data : List Nat) : Nat × Heap :=
  (h.next, { next := h.next + 1, live := h.live ++ [{ addr := h.next, size := size, data := data }] })

/-- The call `C.free(p)`. -/
def Heap.free (h : Heap) (p : Nat) : Heap :=
  { h with live := h.live.filter (fun b => b.addr ≠ p) }

/-- The block at an address. -/
def Heap.block (h : Heap) (p : Nat) : Option Block :=
  h.live.find? (fun b => b.addr = p)

/-- A write of `bytes` into the block at `p`, from byte `off` on
(`copy((*[1 << 30]byte)(zp)[0:len], ...)`). -/
def Heap.write (h : Heap) (p off : Nat) (bytes : List Nat) : Heap :=
  { h with live := h.live.map (fun b =>
      if b.addr = p then
        { b with data := (b.data ++ List.replicate (off - b.data.length) 0).take off ++ bytes
                          ++ b.data.drop (off + bytes.length) }
      else b) }

/-- Modelled from the spec: `CByte` is not in the source file; the bytes are
"copied into owned buffer", a malloc of `len(b)` bytes. -/
def CByte (h : Heap) (b : List Nat) : Nat × Heap := h.alloc b.length b

/-- The call `C.CString(s)`: a malloc of `len(s)+1` bytes holding `s` and a
terminating zero. -/
def CString (h : Heap) (s : GoString) : Nat × Heap := h.alloc (s.length + 1) (s ++ [0])

/-! ## The state the statement code works on -/

/-- The native calls the statement code issues, with the arguments that matter. -/
inductive Event
  | descriptorAlloc (size : Nat)
  | dateTimeConstruct (zone : GoString)
  | bindByName (name : GoString) (pbuf : Option Nat) (maxSize : Int) (dataType : Nat) (indicator : Int)
  | bindByPos (position : Nat) (pbuf : Option Nat) (maxSize : Int) (dataType : Nat) (indicator : Int)
  | stmtExecute (iter : Nat) (mode : Nat)
  | closeDone
  | handleFree (handle : Option Nat)
  | attrSetPrefetchRows (n : Nat)
  | attrSetPrefetchMemory (n : Nat)
  | defineByPos (position : Nat) (pbuf : Option Nat) (size : Int) (kind : Nat)
  deriving DecidableEq, Repr

/-- The C heap and the trace of native calls. -/
structure World where
  heap : Heap
  log : List Event
  deriving DecidableEq, Repr

/-- A world with nothing allocated and no call made. -/
def World.empty : World := { heap := Heap.empty, log := [] }

/-- The type `oci8bind`, with the fields the file uses; `bindHandle` is never
set by this file and is left out. -/
structure oci8bind where
  kind : Nat
  clen : Int
  pbuf : Option Nat
  indicator : Int
  out : Option Dest
  deriving DecidableEq, Repr

/-- The zero value `var sbind oci8bind`. -/
def oci8bind.zero : oci8bind := { kind := 0, clen := 0, pbuf := none, indicator := 0, out := none }

/-- The fields of `OCI8Conn` the statement code reads. -/
structure OCI8Conn where
  inTransaction : Bool
  prefetchRows : Nat
  prefetchMemory : Nat
  deriving DecidableEq, Repr

/-- The type `OCI8Stmt`: the native statement handle (`none` is nil), the
closed flag and the bind references. -/
structure OCI8Stmt where
  conn : OCI8Conn
  stmt : Option Nat
  closed : Bool
  pbind : List oci8bind
  deriving DecidableEq, Repr

/-- The answers of the native library to the calls `bind` makes for one
argument. -/
structure BindNative where
  descriptorAllocRv : Int
  construct1Rv : Int
  zoneOffsetRv : Int
  zoneH : Int
  zoneM : Int
  construct2Rv : Int
  bindRv : Int
  deriving DecidableEq, Repr

/-- Answers under which every native call of `bind` succeeds and the engine
knows the zone. -/
def BindNative.allOk : BindNative :=
  { descriptorAllocRv := 0, construct1Rv := 0, zoneOffsetRv := 0, zoneH := 0, zoneM := 0,
    construct2Rv := 0, bindRv := 0 }

/-- Modelled from the spec: `freeBoundParameters` is not in the source file; it
releases the buffer of every descriptor of the list it is given. -/
def freeBoundParameters (boundParameters : List oci8bind) (w : World) : World :=
  boundParameters.foldl
    (fun w b => match b.pbuf with
      | some p => { w with heap := w.heap.free p }
      | none => w) w

/-! ## `OCI8Stmt.Close` -/

/-- The method `OCI8Stmt.Close`: the new statement state, the world and the
error returned. -/
def OCI8Stmt.Close (stmt : OCI8Stmt) (w : World) : OCI8Stmt × World × Option GoError :=
  if stmt.closed then (stmt, w, none)
  else
    ({ stmt with closed := true, stmt := none, pbind := [] },
     { w with log := w.log ++ [Event.handleFree stmt.stmt] }, none)

/-! ## `OCI8Stmt.bind` -/

/-- The decimal digits of `n` as ASCII bytes, most significant first. -/
def decimalAux : Nat → Nat → List Nat
  | 0, n => [48 + n % 10]
  | fuel + 1, n => if n < 10 then [48 + n] else decimalAux fuel (n / 10) ++ [48 + n % 10]

/-- The text of `%d` for a natural number. -/
def decimal (n : Nat) : List Nat := decimalAux n n

/-- The text of `%02d` for a Go `int`: zero padding to width 2, the sign counted
in the width. -/
def fmt02d (n : Int) : List Nat :=
  if n < 0 then
    ch '-' :: decimal (-n).toNat
  else
    List.replicate (2 - (decimal n.toNat).length) (ch '0') ++ decimal n.toNat

/-- The fixed-offset zone text of the second try of timestamp binding:
`sign := '+'; if offset < 0 { offset = -offset; sign = '-' }; offset /= 60;
zone = fmt.Sprintf("%c%02d:%02d", sign, offset/60, offset%60)`. -/
def retryZone (offset : Int) : GoString :=
  let sign := if offset < 0 then ch '-' else ch '+'
  let offset := if offset < 0 then wrapInt64 (-offset) else offset
  let offset := offset.tdiv 60
  sign :: (fmt02d (offset.tdiv 60) ++ ch ':' :: fmt02d (offset.tmod 60))

/-- The outcome of one step of a function body: go on with a value, or return
from the function with this error value. -/
inductive Step (α : Type)
  | next (a : α) (w : World)
  | ret (err : Option GoError) (w : World)

/-- The `case time.Time` arm of `bind`. -/
def bindTime (nat : BindNative) (boundParameters : List oci8bind) (sbind : oci8bind)
    (v : GoTime) (w : World) : Step oci8bind :=
  let zone := v.zone
  let offset := v.offset
  let size := (if zone.length < 8 then 8 else zone.length) + sizeOfNilPointer
  let w := { w with log := w.log ++ [Event.descriptorAlloc size] }
  if nat.descriptorAllocRv ≠ OCI_SUCCESS then
    Step.ret (getError nat.descriptorAllocRv) (freeBoundParameters boundParameters w)
  else
    let (pt, h) := w.heap.alloc size []
    let sbind := { sbind with kind := SQLT_TIMESTAMP_TZ, clen := toSb4 sizeOfNilPointer }
    let w := { heap := h.write pt sizeOfNilPointer zone,
               log := w.log ++ [Event.dateTimeConstruct zone] }
    if nat.construct1Rv = OCI_SUCCESS ∧ nat.zoneOffsetRv ≠ OCI_SUCCESS then
      Step.ret (getError nat.zoneOffsetRv) (freeBoundParameters boundParameters w)
    else
      let tryagain : Bool :=
        if nat.construct1Rv ≠ OCI_SUCCESS then true
        else decide (offset ≠ nat.zoneH * 60 * 60 + nat.zoneM * 60)
      if tryagain then
        let zone := retryZone offset
        let w := { heap := w.heap.write pt sizeOfNilPointer zone,
                   log := w.log ++ [Event.dateTimeConstruct zone] }
        if nat.construct2Rv ≠ OCI_SUCCESS then
          Step.ret (getError nat.construct2Rv) (freeBoundParameters boundParameters w)
        else Step.next { sbind with pbuf := some pt } w
      else Step.next { sbind with pbuf := some pt } w

/-- The type switch of `bind` on the value `vv` of argument `i`: the descriptor
with its buffer set, or the early return of that arm. -/
def bindSwitch (nat : BindNative) (i : Nat) (boundParameters : List oci8bind)
    (sbind : oci8bind) (vv : GoValue) (w : World) : Step oci8bind :=
  match vv with
  | .nil =>
    Step.next { sbind with kind := SQLT_STR, clen := 0, pbuf := none, indicator := -1 } w
  | .bytes v =>
    let (p, h) := CByte w.heap v
    Step.next { sbind with kind := SQLT_BIN, clen := toSb4 v.length, pbuf := some p }
      { w with heap := h }
  | .time v => bindTime nat boundParameters sbind v w
  | .str v =>
    let (p, h) := CString w.heap v
    let sbind :=
      if sbind.out ≠ none then
        { sbind with kind := SQLT_STR, clen := toSb4 (v.length + 1), pbuf := some p }
      else
        { sbind with kind := SQLT_AFC, clen := toSb4 v.length, pbuf := some p }
    let sbind := if v.length = 0 then { sbind with indicator := -1 } else sbind
    Step.next sbind { w with heap := h }
  | .integer _ _ =>
    match binaryWrite vv with
    | none => Step.ret (some (GoError.binaryColumn i)) w
    | some buffer =>
      let (p, h) := CByte w.heap buffer
      Step.next { sbind with kind := SQLT_INT, clen := toSb4 buffer.length, pbuf := some p }
        { w with heap := h }
  | .float32 _ | .float64 _ =>
    match binaryWrite vv with
    | none => Step.ret (some (GoError.binaryColumn i)) w
    | some buffer =>
      let (p, h) := CByte w.heap buffer
      Step.next { sbind with kind := SQLT_BDOUBLE, clen := toSb4 buffer.length, pbuf := some p }
        { w with heap := h }
  | .bool v =>
    let (p, h) := CByte w.heap (if v then [1] else [0])
    Step.next { sbind with kind := SQLT_INT, clen := toSb4 1, pbuf := some p } { w with heap := h }
  | .other d _ =>
    if sbind.out ≠ none then
      Step.next { sbind with kind := SQLT_STR, clen := 0, pbuf := none, indicator := -1 } w
    else
      let (p, h) := CString w.heap d
      Step.next { sbind with kind := SQLT_CHR, clen := toSb4 d.length, pbuf := some p }
        { w with heap := h }

/-- The method `ociBindByName`: the native call and `getError` of its result. -/
def ociBindByName (result : Int) (name : GoString) (value : Option Nat) (maxSize : Int)
    (dataType : Nat) (indicator : Int) (w : World) : Option GoError × World :=
  (getError result,
   { w with log := w.log ++ [Event.bindByName name value maxSize dataType indicator] })

/-- The method `ociBindByPos`: the native call and `getError` of its result. -/
def ociBindByPos (result : Int) (position : Nat) (value : Option Nat) (maxSize : Int)
    (dataType : Nat) (indicator : Int) (w : World) : Option GoError × World :=
  (getError result,
   { w with log := w.log ++ [Event.bindByPos position value maxSize dataType indicator] })

/-- The body of the loop of `bind` for argument `uv` at index `i`, up to and
including the switch: the value dispatched on and the descriptor built. -/
def bindBuild (nat : BindNative) (i : Nat) (uv : namedValue) (boundParameters : List oci8bind)
    (w : World) : Step oci8bind :=
  match uv.Value with
  | .plain vv => bindSwitch nat i boundParameters oci8bind.zero vv w
  | .out dest =>
    match convertValue dest with
    | .error e => Step.ret (some e) (freeBoundParameters boundParameters w)
    | .ok vv => bindSwitch nat i boundParameters { oci8bind.zero with out := dest } vv w

/-- The loop of `bind` from index `i` on, with the descriptors accumulated so
far. -/
def bindLoop (stmt : OCI8Stmt) (nat : Nat → BindNative) :
    Nat → List namedValue → List oci8bind → World → (List oci8bind × Option GoError) × World
  | _, [], boundParameters, w => ((boundParameters, none), w)
  | i, uv :: rest, boundParameters, w =>
    match bindBuild (nat i) i uv boundParameters w with
    | Step.ret err w => (([], err), w)
    | Step.next sbind w =>
      let boundParameters := boundParameters ++ [sbind]
      let (err, w) :=
        if uv.Name ≠ [] then
          ociBindByName (nat i).bindRv (ch ':' :: uv.Name) sbind.pbuf sbind.clen sbind.kind
            sbind.indicator w
        else
          ociBindByPos (nat i).bindRv (toUb4 (i + 1)) sbind.pbuf sbind.clen sbind.kind
            sbind.indicator w
      if err ≠ none then (([], err), freeBoundParameters stmt.pbind w)
      else bindLoop stmt nat (i + 1) rest boundParameters w

/-- The method `OCI8Stmt.bind`: the descriptors and the error returned, and the
world it leaves. -/
def OCI8Stmt.bind (stmt : OCI8Stmt) (nat : Nat → BindNative) (args : List namedValue)
    (w : World) : (List oci8bind × Option GoError) × World :=
  if args.length = 0 then (([], none), w)
  else bindLoop stmt nat 0 args [] w

/-! ## The column describer of `OCI8Stmt.query` -/

/-- The type `oci8col`, with the fields the file uses; `ind` and `rlen` point
into slot `slot` of the shared indicator/length array. -/
structure oci8col where
  name : GoString
  kind : Nat
  size : Int
  pbuf : Option Nat
  slot : Option Nat
  deriving DecidableEq, Repr

/-- The zero value of `oci8col` (an element of `make([]oci8col, paramCount)`). -/
def oci8col.zero : oci8col := { name := [], kind := 0, size := 0, pbuf := none, slot := none }

/-- The value of `C.sizeof_indrlen` (a struct of an `sb2` and a `ub2`). -/
def sizeof_indrlen : Nat := 4

/-- The answers of the native library to the calls `query` makes for one result
column. -/
structure ColNative where
  paramGetRv : Int
  dataTypeRv : Int
  dataType : Nat
  nameRv : Int
  name : GoString
  dataSizeRv : Int
  dataSize : Nat
  precisionRv : Int
  precision : Int
  scaleRv : Int
  scale : Int
  descriptorAllocRv : Int
  defineRv : Int
  deriving DecidableEq, Repr

/-- Answers for a column of the given type and size under which every native
call succeeds. -/
def ColNative.ok (dataType dataSize : Nat) (precision scale : Int) : ColNative :=
  { paramGetRv := 0, dataTypeRv := 0, dataType := dataType, nameRv := 0, name := [],
    dataSizeRv := 0, dataSize := dataSize, precisionRv := 0, precision := precision,
    scaleRv := 0, scale := scale, descriptorAllocRv := 0, defineRv := 0 }

/-- A column buffer obtained with `C.malloc(n)`: kind, size and buffer are
stored in the column. -/
def mallocCol (col : oci8col) (kind : Nat) (size : Int) (n : Nat) (w : World) : Step oci8col :=
  let (p, h) := w.heap.alloc n []
  Step.next { col with kind := kind, size := size, pbuf := some p } { w with heap := h }

/-- A column addressed through a native descriptor: `WrapOCIDescriptorAlloc`
with `size` extra bytes; on failure the indicator array is freed and the error
returned. -/
def descriptorCol (cn : ColNative) (indrlenptr : Nat) (col : oci8col) (kind : Nat) (size : Nat)
    (w : World) : Step oci8col :=
  let w := { w with log := w.log ++ [Event.descriptorAlloc size] }
  if cn.descriptorAllocRv ≠ OCI_SUCCESS then
    Step.ret (getError cn.descriptorAllocRv) { w with heap := w.heap.free indrlenptr }
  else
    let (p, h) := w.heap.alloc size []
    Step.next { col with kind := kind, size := sizeOfNilPointer, pbuf := some p }
      { w with heap := h }

/-- The `switch dataType` of `query` for one column: `col` is `oci8cols[i]` as
it stands before the switch, `dataType` and `dataSize` the attributes read. -/
def defineSwitch (lobBufferSize : Int) (cn : ColNative) (indrlenptr : Nat) (col : oci8col)
    (dataType dataSize : Nat) (w : World) : Step oci8col :=
  if dataType = SQLT_CHR ∨ dataType = SQLT_AFC ∨ dataType = SQLT_VCS ∨ dataType = SQLT_AVC then
    let size := wrapInt64 (dataSize * 4)
    mallocCol col SQLT_CHR size ((toSizeT size + 1) % 2 ^ 64) w
  else if dataType = SQLT_BIN then
    let size : Int := dataSize
    mallocCol col SQLT_BIN size (toSizeT size) w
  else if dataType = SQLT_NUM then
    if cn.precisionRv ≠ OCI_SUCCESS then
      Step.ret (getError cn.precisionRv) { w with heap := w.heap.free indrlenptr }
    else
      let precision := cn.precision
      if cn.scaleRv ≠ OCI_SUCCESS then
        Step.ret (getError cn.scaleRv) { w with heap := w.heap.free indrlenptr }
      else
        let scale := cn.scale
        if (precision = 0 ∧ scale = 0) ∨ scale > 0 ∨ scale = -127 then
          mallocCol col SQLT_BDOUBLE 8 (toSizeT 8) w
        else
          mallocCol col SQLT_INT 8 (toSizeT 8) w
  else if dataType = SQLT_INT then
    mallocCol col SQLT_INT 8 (toSizeT 8) w
  else if dataType = SQLT_BFLOAT ∨ dataType = SQLT_IBFLOAT ∨ dataType = SQLT_BDOUBLE
      ∨ dataType = SQLT_IBDOUBLE then
    mallocCol col SQLT_BDOUBLE 8 (toSizeT 8) w
  else if dataType = SQLT_LNG then
    mallocCol col SQLT_BIN 2000 (toSizeT 2000) w
  else if dataType = SQLT_CLOB ∨ dataType = SQLT_BLOB then
    let size : Int := (sizeOfNilPointer + 4 : Nat)
    let size := if col.size < lobBufferSize then wrapInt64 (size + lobBufferSize)
                else wrapInt64 (size + col.size)
    descriptorCol cn indrlenptr col dataType (toSizeT size) w
  else if dataType = SQLT_TIMESTAMP ∨ dataType = SQLT_DAT then
    descriptorCol cn indrlenptr col SQLT_TIMESTAMP sizeOfNilPointer w
  else if dataType = SQLT_TIMESTAMP_TZ ∨ dataType = SQLT_TIMESTAMP_LTZ then
    descriptorCol cn indrlenptr col SQLT_TIMESTAMP_TZ sizeOfNilPointer w
  else if dataType = SQLT_INTERVAL_DS then
    descriptorCol cn indrlenptr col SQLT_INTERVAL_DS sizeOfNilPointer w
  else if dataType = SQLT_INTERVAL_YM then
    descriptorCol cn indrlenptr col SQLT_INTERVAL_YM sizeOfNilPointer w
  else if dataType = SQLT_RDD then
    let dataSize := 40
    mallocCol col SQLT_CHR (toUb4 (dataSize + 1)) ((dataSize + 1) % 2 ^ 64) w
  else
    mallocCol col SQLT_CHR (toUb4 (dataSize + 1)) ((dataSize + 1) % 2 ^ 64) w

/-- The body of the column loop of `query` for column index `i`: the attribute
reads, the switch and the define call.  Every failure frees the indicator
array and returns the error. -/
def describeColumn (lobBufferSize : Int) (cn : ColNative) (indrlenptr : Nat) (i : Nat)
    (w : World) : Step oci8col :=
  let fail := fun (rv : Int) (w : World) =>
    (Step.ret (getError rv) { w with heap := w.heap.free indrlenptr } : Step oci8col)
  if getError cn.paramGetRv ≠ none then fail cn.paramGetRv w
  else if getError cn.dataTypeRv ≠ none then fail cn.dataTypeRv w
  else
    let dataType := cn.dataType % 2 ^ 16
    if cn.nameRv ≠ OCI_SUCCESS then fail cn.nameRv w
    else
      let col := { oci8col.zero with name := cn.name }
      if getError cn.dataSizeRv ≠ none then fail cn.dataSizeRv w
      else
        let dataSize := toUb4 cn.dataSize
        match defineSwitch lobBufferSize cn indrlenptr col dataType dataSize w with
        | Step.ret err w => Step.ret err w
        | Step.next col w =>
          let col := { col with slot := some i }
          let w := { w with log := w.log ++
            [Event.defineByPos (toUb4 (i + 1)) col.pbuf (toSb4 col.size) col.kind] }
          if cn.defineRv ≠ OCI_SUCCESS then fail cn.defineRv w
          else Step.next col w

/-- The column loop of `query`: `n` columns remain, starting at index `i`. -/
def defineLoop (lobBufferSize : Int) (col : Nat → ColNative) (indrlenptr : Nat) :
    Nat → Nat → List oci8col → World → Step (List oci8col)
  | 0, _, cols, w => Step.next cols w
  | n + 1, i, cols, w =>
    match describeColumn lobBufferSize (col i) indrlenptr i w with
    | Step.ret err w => Step.ret err w
    | Step.next c w => defineLoop lobBufferSize col indrlenptr n (i + 1) (cols ++ [c]) w

/-! ## `OCI8Stmt.query` and `OCI8Stmt.exec` -/

/-- The answers of the native library to the calls of one `query` or `exec`.
`outData i` is what the engine leaves in the buffer of bind descriptor `i`
during the execute call (`none`: the buffer is not written); `rowidAddr` is the
address of the local string of `lastInsertId`. -/
structure ExecNative where
  bind : Nat → BindNative
  stmtTypeRv : Int
  stmtType : Nat
  prefetchRowsRv : Int
  prefetchMemoryRv : Int
  executeRv : Int
  outData : Nat → Option (List Nat)
  paramCountRv : Int
  paramCount : Nat
  col : Nat → ColNative
  rowCountRv : Int
  rowCount : Nat
  rowidRv : Int
  rowidAddr : Int

/-- The type `OCI8Rows` as `query` builds it. -/
structure OCI8Rows where
  cols : List oci8col
  e : Bool
  indrlenptr : Nat
  closed : Bool
  cls : Bool
  deriving DecidableEq, Repr

/-- The type `OCI8Result`. -/
structure OCI8Result where
  n : Int
  errn : Option GoError
  id : Int
  errid : Option GoError
  deriving DecidableEq, Repr

/-- How a call ends: it returns a value and an error, or it panics. -/
inductive Outcome (α : Type)
  | ret (value : Option α) (err : Option GoError)
  | panic
  deriving DecidableEq, Repr

/-- The native execute call: the call is traced and the engine writes the
output values into the bound buffers. -/
def stmtExecute (nat : ExecNative) (fbp : List oci8bind) (iter mode : Nat) (w : World) : World :=
  let h := (fbp.enum).foldl
    (fun h ib => match ib.2.pbuf, nat.outData ib.1 with
      | some p, some d => h.write p 0 d
      | _, _ => h) w.heap
  { heap := h, log := w.log ++ [Event.stmtExecute iter mode] }

/-- The execution mode: `OCI_DEFAULT`, with `OCI_COMMIT_ON_SUCCESS` or-ed in
outside a transaction. -/
def executeMode (stmt : OCI8Stmt) : Nat :=
  if ¬ stmt.conn.inTransaction then OCI_DEFAULT ||| OCI_COMMIT_ON_SUCCESS else OCI_DEFAULT

/-- The part of `query` after the execute call succeeded: the column count,
the indicator array, the column loop and the rows. -/
def queryDefine (lobBufferSize : Int) (nat : ExecNative) (closeRows : Bool) (w : World) :
    Outcome OCI8Rows × World :=
  if getError nat.paramCountRv ≠ none then (Outcome.ret none (getError nat.paramCountRv), w)
  else
    let paramCount := toUb4 nat.paramCount
    let (indrlenptr, h) := w.heap.alloc (paramCount * sizeof_indrlen) []
    let w := { w with heap := h }
    if paramCount > 2 ^ 16 then (Outcome.panic, w)
    else
      match defineLoop lobBufferSize nat.col indrlenptr paramCount 0 [] w with
      | Step.ret err w => (Outcome.ret none err, w)
      | Step.next cols w =>
        (Outcome.ret
          (some { cols := cols, e := false, indrlenptr := indrlenptr, closed := false,
                  cls := closeRows }) none, w)

/-- The method `OCI8Stmt.query` (the cancellation watcher is a separate
goroutine and is not part of this sequential translation; `close(done)` is
traced). -/
def OCI8Stmt.query (stmt : OCI8Stmt) (lobBufferSize : Int) (nat : ExecNative)
    (args : List namedValue) (closeRows : Bool) (w : World) : Outcome OCI8Rows × World :=
  match stmt.bind nat.bind args w with
  | ((_, some err), w) => (Outcome.ret none (some err), w)
  | ((fbp, none), w) =>
    let finish := fun (r : Outcome OCI8Rows × World) => (r.1, freeBoundParameters fbp r.2)
    if getError nat.stmtTypeRv ≠ none then finish (Outcome.ret none (getError nat.stmtTypeRv), w)
    else
      let stmtType := nat.stmtType % 2 ^ 16
      let iter := if stmtType = OCI_STMT_SELECT then 0 else 1
      let w1 := if stmt.conn.prefetchRows > 0 then
          { w with log := w.log ++ [Event.attrSetPrefetchRows (toUb4 stmt.conn.prefetchRows)] }
        else w
      if stmt.conn.prefetchRows > 0 ∧ nat.prefetchRowsRv ≠ OCI_SUCCESS then
        finish (Outcome.ret none (getError nat.prefetchRowsRv), w1)
      else
        let w2 := if stmt.conn.prefetchMemory > 0 then
            { w1 with log := w1.log ++
                [Event.attrSetPrefetchMemory (toUb4 stmt.conn.prefetchMemory)] }
          else w1
        if stmt.conn.prefetchMemory > 0 ∧ nat.prefetchMemoryRv ≠ OCI_SUCCESS then
          finish (Outcome.ret none (getError nat.prefetchMemoryRv), w2)
        else
          let mode := executeMode stmt
          let w3 := stmtExecute nat fbp iter mode w2
          let rv := nat.executeRv
          let w4 := { w3 with log := w3.log ++ [Event.closeDone] }
          if rv ≠ OCI_SUCCESS then finish (Outcome.ret none (getError rv), w4)
          else finish (queryDefine lobBufferSize nat closeRows w4)

/-! ## `OCI8Stmt.outputBoundParameters` -/

/-- The caller's variables that output slots point to: address and value, the
first entry for an address being the current one. -/
abbrev Slots := List (Nat × GoValue)

/-- The assignment `*v = x` through a pointer to the variable at `addr`. -/
def Slots.set (m : Slots) (addr : Nat) (x : GoValue) : Slots := (addr, x) :: m

/-- The value of the variable at `addr`. -/
def Slots.get (m : Slots) (addr : Nat) : Option GoValue := (m.find? (fun e => e.1 = addr)).map (·.2)

/-- The `n` bytes at the start of the buffer at `p`. -/
def readBuf (h : Heap) (p n : Nat) : List Nat :=
  match h.block p with
  | some b => (b.data ++ List.replicate n 0).take n
  | none => List.replicate n 0

/-- The number a little-endian byte sequence encodes. -/
def leDecode : List Nat → Nat
  | [] => 0
  | b :: bs => b % 256 + 256 * leDecode bs

/-- Modelled from the spec: `getInt64` is not in the source file; it reads the
8 bytes of the buffer as a little-endian signed integer. -/
def getInt64 (h : Heap) (p : Nat) : Int :=
  let u := leDecode (readBuf h p 8)
  if u ≥ 2 ^ 63 then (u : Int) - 2 ^ 64 else u

/-- Modelled from the spec: `getUint64` is not in the source file; it reads the
8 bytes of the buffer as a little-endian unsigned integer. -/
def getUint64 (h : Heap) (p : Nat) : Int := leDecode (readBuf h p 8)

/-- The Go conversion of a 64-bit integer to the integer type `k`. -/
def narrowTo (k : IntKind) (x : Int) : Int :=
  match k with
  | .int | .int64 => wrapInt64 x
  | .int32 => (x + 2 ^ 31) % 2 ^ 32 - 2 ^ 31
  | .int16 => (x + 2 ^ 15) % 2 ^ 16 - 2 ^ 15
  | .int8 => (x + 2 ^ 7) % 2 ^ 8 - 2 ^ 7
  | .uint | .uint64 | .uintptr => x % 2 ^ 64
  | .uint32 => x % 2 ^ 32
  | .uint16 => x % 2 ^ 16
  | .uint8 => x % 2 ^ 8

/-- Whether the integer type is signed (read with `getInt64`) or unsigned
(read with `getUint64`). -/
def IntKind.signed : IntKind → Bool
  | .int | .int8 | .int16 | .int32 | .int64 => true
  | _ => false

/-- The call `binary.Read(bytes.NewReader(buf), binary.LittleEndian, &data)`
with `data` a `float64`: it needs 8 bytes. -/
def binaryReadFloat64 (buf : List Nat) : Option Nat :=
  if buf.length < 8 then none else some (leDecode (buf.take 8))

/-- The Go conversion `float32(data)` on bit patterns: round to nearest, ties
to even (IEEE 754). -/
def float64to32 (b : Nat) : Nat :=
  let s : Nat := b / 2 ^ 63 % 2
  let e : Nat := b / 2 ^ 52 % 2048
  let m : Nat := b % 2 ^ 52
  if e = 2047 then
    s * 2 ^ 31 + (if m = 0 then 0x7f800000 else 0x7fc00000 + m / 2 ^ 29 % 2 ^ 22)
  else
    let M : Nat := if e = 0 then m else 2 ^ 52 + m
    if M = 0 then s * 2 ^ 31
    else
      let E : Int := if e = 0 then -1074 else (e : Int) - 1075
      let x : Int := (Nat.log2 M : Int) + E
      let u : Int := if x - 23 < -149 then -149 else x - 23
      let shift := (u - E).toNat
      let q0 := M / 2 ^ shift
      let rem := M % 2 ^ shift
      let half := 2 ^ (shift - 1)
      let q := if rem > half ∨ (rem = half ∧ q0 % 2 = 1) then q0 + 1 else q0
      let bits := (u + 149).toNat * 2 ^ 23 + q
      s * 2 ^ 31 + (if bits ≥ 0x7f800000 then 0x7f800000 else bits)

/-- The text `C.GoString` reads from a buffer: the bytes before the first zero. -/
def goString (h : Heap) (p : Nat) : GoString :=
  match h.block p with
  | some b => b.data.takeWhile (fun c => c ≠ 0)
  | none => []

/-- The body of the loop of `outputBoundParameters` for descriptor `col` at
index `i`: the type switch on the output slot. -/
def outputOne (i : Nat) (col : oci8bind) (h : Heap) (m : Slots) : Outcome Unit × Slots :=
  match col.pbuf with
  | none => (Outcome.ret (some ()) none, m)
  | some p =>
    match col.out with
    | some (Dest.ptr addr (.str _)) =>
      if col.indicator = -1 then (Outcome.ret (some ()) none, m.set addr (.str []))
      else (Outcome.ret (some ()) none, m.set addr (.str (goString h p)))
    | some (Dest.ptr addr (.integer k _)) =>
      if k.signed then (Outcome.ret (some ()) none, m.set addr (.integer k (narrowTo k (getInt64 h p))))
      else (Outcome.ret (some ()) none, m.set addr (.integer k (narrowTo k (getUint64 h p))))
    | some (Dest.ptr addr (.float64 _)) =>
      match binaryReadFloat64 (readBuf h p 8) with
      | none => (Outcome.ret none (some (GoError.binaryColumn i)), m)
      | some data => (Outcome.ret (some ()) none, m.set addr (.float64 data))
    | some (Dest.ptr addr (.float32 _)) =>
      match binaryReadFloat64 (readBuf h p 8) with
      | none => (Outcome.ret none (some (GoError.binaryColumn i)), m)
      | some data => (Outcome.ret (some ()) none, m.set addr (.float32 (float64to32 data)))
    | some (Dest.ptr addr (.bool _)) =>
      (Outcome.ret (some ()) none, m.set addr (.bool (decide ((readBuf h p 1).head? ≠ some 0))))
    | some (Dest.nilPtr true) => (Outcome.panic, m)
    | _ => (Outcome.ret (some ()) none, m)

/-- The loop of `outputBoundParameters` from index `i` on. -/
def outputLoop (h : Heap) : Nat → List oci8bind → Slots → Outcome Unit × Slots
  | _, [], m => (Outcome.ret (some ()) none, m)
  | i, col :: rest, m =>
    match outputOne i col h m with
    | (Outcome.ret _ none, m) => outputLoop h (i + 1) rest m
    | r => r

/-- The method `outputBoundParameters`. -/
def OCI8Stmt.outputBoundParameters (boundParameters : List oci8bind) (h : Heap) (m : Slots) :
    Outcome Unit × Slots :=
  outputLoop h 0 boundParameters m

/-- The method `rowsAffected`. -/
def rowsAffected (nat : ExecNative) : Int × Option GoError :=
  if nat.rowCountRv ≠ OCI_SUCCESS then (0, getError nat.rowCountRv)
  else (((toUb4 nat.rowCount : Nat) : Int), none)

/-- The method `lastInsertId`: the address of a local string when the row id
can be read, else 0; never an error. -/
def lastInsertId (nat : ExecNative) : Int × Option GoError :=
  if nat.rowidRv = OCI_SUCCESS then (wrapInt64 nat.rowidAddr, none) else (0, none)

/-- The method `OCI8Stmt.exec` (the cancellation watcher is a separate
goroutine and is not part of this sequential translation; `close(done)` is
traced). -/
def OCI8Stmt.exec (stmt : OCI8Stmt) (nat : ExecNative) (args : List namedValue) (m : Slots)
    (w : World) : Outcome OCI8Result × Slots × World :=
  match stmt.bind nat.bind args w with
  | ((_, some err), w) => (Outcome.ret none (some err), m, w)
  | ((fbp, none), w) =>
    let mode := executeMode stmt
    let w := stmtExecute nat fbp 1 mode w
    let rv := nat.executeRv
    let w := { w with log := w.log ++ [Event.closeDone] }
    if rv ≠ OCI_SUCCESS ∧ rv ≠ OCI_SUCCESS_WITH_INFO then
      (Outcome.ret none (getError rv), m, freeBoundParameters fbp w)
    else
      let (n, en) := rowsAffected nat
      let (id, ei) := if n > 0 then lastInsertId nat else (0, none)
      match OCI8Stmt.outputBoundParameters fbp w.heap m with
      | (Outcome.panic, m) => (Outcome.panic, m, freeBoundParameters fbp w)
      | (Outcome.ret _ (some err), m) => (Outcome.ret none (some err), m, freeBoundParameters fbp w)
      | (Outcome.ret _ none, m) =>
        (Outcome.ret (some { n := n, errn := en, id := id, errid := ei }) none, m,
         freeBoundParameters fbp w)

/-! ## Notions used to state the properties -/

/-- Every native call made for the column succeeds. -/
def ColNative.succeeds (cn : ColNative) : Prop :=
  cn.paramGetRv = OCI_SUCCESS ∧ cn.dataTypeRv = OCI_SUCCESS ∧ cn.nameRv = OCI_SUCCESS ∧
  cn.dataSizeRv = OCI_SUCCESS ∧ cn.precisionRv = OCI_SUCCESS ∧ cn.scaleRv = OCI_SUCCESS ∧
  cn.descriptorAllocRv = OCI_SUCCESS ∧ cn.defineRv = OCI_SUCCESS

instance (cn : ColNative) : Decidable cn.succeeds := by
  unfold ColNative.succeeds; infer_instance

/-- The column describer, run on column `i` from world `w`, defines the column
with this kind and size over a fresh buffer of `alloc` bytes obtained with
malloc, the only block added to the heap. -/
def definesMalloc (lobBufferSize : Int) (cn : ColNative) (indrlenptr i : Nat) (w : World)
    (kind : Nat) (size : Int) (alloc : Nat) : Prop :=
  ∃ col w', describeColumn lobBufferSize cn indrlenptr i w = Step.next col w' ∧
    col.kind = kind ∧ col.size = size ∧
    ∃ p, col.pbuf = some p ∧
      w'.heap.live = w.heap.live ++ [{ addr := p, size := alloc, data := [] }]

/-- The external data types the switch of the column describer has a case for. -/
def recognisedTypes : List Nat :=
  [SQLT_CHR, SQLT_AFC, SQLT_VCS, SQLT_AVC, SQLT_BIN, SQLT_NUM, SQLT_INT, SQLT_BFLOAT,
   SQLT_IBFLOAT, SQLT_BDOUBLE, SQLT_IBDOUBLE, SQLT_LNG, SQLT_CLOB, SQLT_BLOB, SQLT_TIMESTAMP,
   SQLT_DAT, SQLT_TIMESTAMP_TZ, SQLT_TIMESTAMP_LTZ, SQLT_INTERVAL_DS, SQLT_INTERVAL_YM, SQLT_RDD]

/-- The number a text of ASCII decimal digits denotes; `none` for an empty text
or a byte that is no digit. -/
def parseDecimal (ds : List Nat) : Option Nat :=
  if ds = [] then none
  else ds.foldl
    (fun acc d => match acc with
      | some a => if 48 ≤ d ∧ d ≤ 57 then some (a * 10 + (d - 48)) else none
      | none => none) (some 0)

/-- The reading of a fixed-offset zone text that the specification names:
a sign, the hours, a colon and the minutes, decoded as
`sign * (HH * 3600 + MM * 60)` seconds. -/
def specDecodeZone (zone : GoString) : Option Int :=
  match zone with
  | [] => none
  | s :: rest =>
    if s ≠ ch '+' ∧ s ≠ ch '-' then none
    else
      match parseDecimal (rest.takeWhile (fun c => c ≠ ch ':')),
            parseDecimal ((rest.dropWhile (fun c => c ≠ ch ':')).drop 1) with
      | some hh, some mm =>
        some ((if s = ch '-' then -1 else 1) * ((hh : Int) * 3600 + (mm : Int) * 60))
      | _, _ => none

/-- The value `bind` dispatches on for an argument: the value itself, or for an
output parameter the converted `Dest`. -/
def dispatchValue : ArgValue → Except GoError GoValue
  | .plain v => .ok v
  | .out dest => convertValue dest

/-- The number of blocks allocated on the C heap. -/
def World.allocated (w : World) : Nat := w.heap.live.length

/-- The number of native handle frees traced. -/
def World.handleFrees (w : World) : Nat :=
  (w.log.filter (fun e => match e with | Event.handleFree _ => true | _ => false)).length

/-- The native calls of `query` before the execute call succeed, so that the
execute call is reached once `bind` has succeeded. -/
def reachesExecute (stmt : OCI8Stmt) (nat : ExecNative) : Prop :=
  nat.stmtTypeRv = OCI_SUCCESS ∧
  (stmt.conn.prefetchRows > 0 → nat.prefetchRowsRv = OCI_SUCCESS) ∧
  (stmt.conn.prefetchMemory > 0 → nat.prefetchMemoryRv = OCI_SUCCESS)

/-- Answers under which every native call of `query` and `exec` succeeds, for a
SELECT without result columns. -/
def ExecNative.allOk : ExecNative :=
  { bind := fun _ => BindNative.allOk, stmtTypeRv := 0, stmtType := OCI_STMT_SELECT,
    prefetchRowsRv := 0, prefetchMemoryRv := 0, executeRv := 0, outData := fun _ => none,
    paramCountRv := 0, paramCount := 0, col := fun _ => ColNative.ok SQLT_CHR 1 0 0,
    rowCountRv := 0, rowCount := 0, rowidRv := 0, rowidAddr := 0 }

/-- An open statement with native handle 77 and no bind references, on a
connection outside a transaction and without prefetch settings. -/
def openStmt : OCI8Stmt :=
  { conn := { inTransaction := false, prefetchRows := 0, prefetchMemory := 0 },
    stmt := some 77, closed := false, pbind := [] }

/-- Six sample arguments: nil, the empty string, a non-empty string, an empty
and a non-empty string as named output parameters, and an output parameter
whose `Dest` is the value `"x"` of a named string type, which the default
converter turns into the string `"x"` by its reflect kind. -/
def sampleArgs : List namedValue :=
  [{ Name := [], Ordinal := 1, Value := .plain .nil },
   { Name := [], Ordinal := 2, Value := .plain (.str []) },
   { Name := [], Ordinal := 3, Value := .plain (.str [65]) },
   { Name := [110], Ordinal := 4, Value := .out (some (.ptr 9 (.str []))) },
   { Name := [111], Ordinal := 5, Value := .out (some (.ptr 10 (.str [66, 67]))) },
   { Name := [112], Ordinal := 6,
     Value := .out (some (.val (.other [120] (.value (.str [120]))))) }]

/-- Two sample output parameters: a `float32` slot and a `bool` slot. -/
def slotArgs : List namedValue :=
  [{ Name := [], Ordinal := 1, Value := .out (some (.ptr 9 (.float32 0x3fc00000))) },
   { Name := [], Ordinal := 2, Value := .out (some (.ptr 10 (.bool true))) }]

/-- A positional argument with a plain input value. -/
def arg (ordinal : Int) (v : GoValue) : namedValue :=
  { Name := [], Ordinal := ordinal, Value := ArgValue.plain v }

/-- The world a step leaves. -/
def Step.world {α : Type} : Step α → World
  | .next _ w => w
  | .ret _ w => w

/-- Whether a traced event is the native execute call or the `close(done)`
that follows it. -/
def Event.isExecuteStep : Event → Bool
  | .stmtExecute _ _ => true
  | .closeDone => true
  | _ => false

/-- The execute calls and done signals of a trace, in order. -/
def executeTrace (log : List Event) : List Event := log.filter Event.isExecuteStep

/-- The arguments (iteration count, mode) of the native execute calls of a
trace, in order. -/
def executeCalls (log : List Event) : List (Nat × Nat) :=
  log.filterMap (fun e => match e with
    | .stmtExecute iter mode => some (iter, mode)
    | _ => none)

/-- The number of done signals (`close(done)`) in a trace. -/
def doneSignals (log : List Event) : Nat := log.count Event.closeDone

/-- The heap has a live block at address `p` of `n` bytes. -/
def Heap.has (h : Heap) (p n : Nat) : Prop := ∃ b ∈ h.live, b.addr = p ∧ b.size = n

/-- The number of bytes `outputBoundParameters` reads from the buffer for an
output slot that points to a `float32`, `float64` or `bool`:
`(*[8]byte)(col.pbuf)[0:8]` for the two float cases and
`(*[1 << 30]byte)(col.pbuf)[0:1]` for the bool case. -/
def slotBytes : GoValue → Option Nat
  | .float32 _ => some 8
  | .float64 _ => some 8
  | .bool _ => some 1
  | _ => none

/-- What the watcher goroutine of `exec` and `query` meets: whether its first
`select` receives from `done` (otherwise it receives from `ctx.Done()`), and
whether `done` is closed when its second `select` runs. -/
structure WatcherRun where
  firstDone : Bool
  doneClosed : Bool
  deriving DecidableEq, Repr

/-- The steps of the watcher goroutine: a receive from `done`, a receive from
`ctx.Done()`, the call `C.OCIBreak`. -/
inductive WatcherStep
  | recvDone
  | recvCancel
  | ociBreak
  deriving DecidableEq, Repr

/-- The body of the watcher goroutine:
`select { case <-done: case <-ctx.Done(): select { case <-done: default: C.OCIBreak(...) } }`.
The second `select` has a default, so it receives from `done` when `done` is
closed and calls `OCIBreak` otherwise. -/
def watcher (r : WatcherRun) : List WatcherStep :=
  if r.firstDone then [WatcherStep.recvDone]
  else if r.doneClosed then [WatcherStep.recvCancel, WatcherStep.recvDone]
  else [WatcherStep.recvCancel, WatcherStep.ociBreak]

/-! ## Theorems -/

/-- C7: `Close` never returns an error; on an open statement it frees the
native statement handle once, sets the closed flag and clears the handle and
the bind references; on a closed statement it changes nothing; hence a second
`Close` changes nothing and frees nothing, and two calls on an open statement
free exactly once. -/
theorem Close_idempotent (stmt : OCI8Stmt) (w : World) :
    (stmt.Close w).2.2 = none ∧
    (stmt.closed = false →
      (stmt.Close w).1.closed = true ∧ (stmt.Close w).1.stmt = none ∧
      (stmt.Close w).1.pbind = [] ∧
      (stmt.Close w).2.1.log = w.log ++ [Event.handleFree stmt.stmt] ∧
      (stmt.Close w).2.1.heap = w.heap ∧
      (stmt.Close w).2.1.handleFrees = w.handleFrees + 1) ∧
    (stmt.closed = true → stmt.Close w = (stmt, w, none)) ∧
    (stmt.Close w).1.Close (stmt.Close w).2.1 = stmt.Close w ∧
    (stmt.closed = false →
      ((stmt.Close w).1.Close (stmt.Close w).2.1).2.1.handleFrees = w.handleFrees + 1) := by
  unfold OCI8Stmt.Close
  cases hc : stmt.closed <;> simp [hc, World.handleFrees, List.filter_append]

/-- Witness of C7 on an open statement with handle 77. -/
theorem Close_idempotent_witness :
    let stmt : OCI8Stmt := { conn := ⟨false, 0, 0⟩, stmt := some 77, closed := false, pbind := [] }
    (stmt.Close World.empty).1.closed = true ∧
    (stmt.Close World.empty).2.1.log = [Event.handleFree (some 77)] ∧
    (stmt.Close World.empty).1.Close (stmt.Close World.empty).2.1 = stmt.Close World.empty := by
  intro stmt
  have h := Close_idempotent stmt World.empty
  exact ⟨(h.2.1 rfl).1, by simpa [World.empty] using (h.2.1 rfl).2.2.2.1, h.2.2.2.1⟩

/-- When the switch of the describer takes a malloc arm and every native call
succeeds, the column is defined over that fresh buffer. -/
theorem describeColumn_malloc_aux (lobBufferSize : Int) (cn : ColNative) (indrlenptr i : Nat) (w : World)
    (hok : cn.succeeds) (kind : Nat) (size : Int) (alloc : Nat)
    (hsw : ∀ col w0, defineSwitch lobBufferSize cn indrlenptr col (cn.dataType % 2 ^ 16) (toUb4 cn.dataSize) w0
        = mallocCol col kind size alloc w0) :
    definesMalloc lobBufferSize cn indrlenptr i w kind size alloc := by
  obtain ⟨h1, h2, h3, h4, -, -, -, h8⟩ := hok
  unfold definesMalloc describeColumn
  simp only [getError, h1, h2, h3, h4, h8, ne_eq, not_true_eq_false, if_true, if_false, hsw,
    mallocCol, Heap.alloc]
  exact ⟨_, _, rfl, rfl, rfl, _, rfl, rfl⟩

/-- The conversion to `size_t` keeps a natural number below `2^64`. -/
theorem toSizeT_ofNat (n : Nat) (h : n < 2 ^ 64) : toSizeT (n : Int) = n := by
  unfold toSizeT
  have : ((n : Int) % 2 ^ 64) = n := by
    apply Int.emod_eq_of_lt <;> omega
  rw [this]; simp

/-- A value in the range of a Go `int` is not changed by the wrap. -/
theorem wrapInt64_of_range (x : Int) (h1 : -2 ^ 63 ≤ x) (h2 : x < 2 ^ 63) : wrapInt64 x = x := by
  unfold wrapInt64
  have : (x + 2 ^ 63) % 2 ^ 64 = x + 2 ^ 63 := by
    apply Int.emod_eq_of_lt <;> omega
  omega

/-- C1: in the column describer, a NUMBER column whose native calls succeed is
defined with an 8-byte buffer, of kind BDOUBLE exactly when
`(precision = 0 and scale = 0) or scale > 0 or scale = -127`, and of kind INT
in every other case. -/
theorem number_column_kind (lobBufferSize : Int) (cn : ColNative) (indrlenptr i : Nat)
    (w : World) (hok : cn.succeeds) (hnum : cn.dataType = SQLT_NUM) :
    ∃ col w', describeColumn lobBufferSize cn indrlenptr i w = Step.next col w' ∧
      col.size = 8 ∧
      (∃ p, col.pbuf = some p ∧
        w'.heap.live = w.heap.live ++ [{ addr := p, size := 8, data := [] }]) ∧
      (col.kind = SQLT_BDOUBLE ↔
        ((cn.precision = 0 ∧ cn.scale = 0) ∨ cn.scale > 0 ∨ cn.scale = -127)) ∧
      (col.kind = SQLT_INT ↔
        ¬ ((cn.precision = 0 ∧ cn.scale = 0) ∨ cn.scale > 0 ∨ cn.scale = -127)) := by
  have h8 : toSizeT 8 = 8 := by decide
  by_cases hc : (cn.precision = 0 ∧ cn.scale = 0) ∨ cn.scale > 0 ∨ cn.scale = -127
  · have hsw : ∀ col w0, defineSwitch lobBufferSize cn indrlenptr col (cn.dataType % 2 ^ 16)
        (toUb4 cn.dataSize) w0 = mallocCol col SQLT_BDOUBLE 8 8 w0 := by
      intro col w0
      unfold defineSwitch
      simp [hnum, SQLT_NUM, SQLT_CHR, SQLT_AFC, SQLT_VCS, SQLT_AVC, SQLT_BIN, hok.2.2.2.2.1,
        hok.2.2.2.2.2.1, hc, h8]
    obtain ⟨col, w', h, hk, hs, hp⟩ :=
      describeColumn_malloc_aux lobBufferSize cn indrlenptr i w hok _ _ _ hsw
    exact ⟨col, w', h, hs, hp, by simp [hk, hc], by simp [hk, hc, SQLT_BDOUBLE, SQLT_INT]⟩
  · have hsw : ∀ col w0, defineSwitch lobBufferSize cn indrlenptr col (cn.dataType % 2 ^ 16)
        (toUb4 cn.dataSize) w0 = mallocCol col SQLT_INT 8 8 w0 := by
      intro col w0
      unfold defineSwitch
      simp [hnum, SQLT_NUM, SQLT_CHR, SQLT_AFC, SQLT_VCS, SQLT_AVC, SQLT_BIN, hok.2.2.2.2.1,
        hok.2.2.2.2.2.1, hc, h8]
    obtain ⟨col, w', h, hk, hs, hp⟩ :=
      describeColumn_malloc_aux lobBufferSize cn indrlenptr i w hok _ _ _ hsw
    exact ⟨col, w', h, hs, hp, by simp [hk, hc, SQLT_BDOUBLE, SQLT_INT], by simp [hk, hc]⟩

/-- Witness of C1, at the four numeric columns the specification lists:
(5,0) is integer; (5,2), (0,0) and (10,-127) are floating. -/
theorem number_column_kind_witness :
    (ColNative.ok SQLT_NUM 22 5 0).succeeds ∧
    (∃ col w', describeColumn 4000 (ColNative.ok SQLT_NUM 22 5 0) 0 0 World.empty
        = Step.next col w' ∧ col.kind = SQLT_INT ∧ col.size = 8) ∧
    (∃ col w', describeColumn 4000 (ColNative.ok SQLT_NUM 22 5 2) 0 0 World.empty
        = Step.next col w' ∧ col.kind = SQLT_BDOUBLE ∧ col.size = 8) ∧
    (∃ col w', describeColumn 4000 (ColNative.ok SQLT_NUM 22 0 0) 0 0 World.empty
        = Step.next col w' ∧ col.kind = SQLT_BDOUBLE ∧ col.size = 8) ∧
    (∃ col w', describeColumn 4000 (ColNative.ok SQLT_NUM 22 10 (-127)) 0 0 World.empty
        = Step.next col w' ∧ col.kind = SQLT_BDOUBLE ∧ col.size = 8) := by
  refine ⟨by decide, ?_, ?_, ?_, ?_⟩
  · obtain ⟨col, w', h, hs, -, -, hi⟩ :=
      number_column_kind 4000 (ColNative.ok SQLT_NUM 22 5 0) 0 0 World.empty (by decide) rfl
    exact ⟨col, w', h, hi.mpr (by decide), hs⟩
  · obtain ⟨col, w', h, hs, -, hb, -⟩ :=
      number_column_kind 4000 (ColNative.ok SQLT_NUM 22 5 2) 0 0 World.empty (by decide) rfl
    exact ⟨col, w', h, hb.mpr (by decide), hs⟩
  · obtain ⟨col, w', h, hs, -, hb, -⟩ :=
      number_column_kind 4000 (ColNative.ok SQLT_NUM 22 0 0) 0 0 World.empty (by decide) rfl
    exact ⟨col, w', h, hb.mpr (by decide), hs⟩
  · obtain ⟨col, w', h, hs, -, hb, -⟩ :=
      number_column_kind 4000 (ColNative.ok SQLT_NUM 22 10 (-127)) 0 0 World.empty (by decide) rfl
    exact ⟨col, w', h, hb.mpr (by decide), hs⟩

/-- C8: in the column describer, for a column of reported byte size `d` whose
native calls succeed: a character, fixed-char or varying-char column gets kind
CHR with size `4*d` over a buffer of `4*d+1` bytes; a binary column kind BIN
with size and buffer `d`; a native integer column kind INT over 8 bytes; a
native float column kind BDOUBLE over 8 bytes; a legacy long column a buffer
of 2000 bytes (kind BIN); a rowid column kind CHR with size and buffer 41
whatever `d` is; and a type without a case kind CHR over a buffer of `d+1`
bytes (the size field is `d+1` as a `ub4`). -/
theorem column_buffer_sizes (lobBufferSize : Int) (cn : ColNative) (indrlenptr i : Nat)
    (w : World) (hok : cn.succeeds) (hd : cn.dataSize < 2 ^ 32) (ht : cn.dataType < 2 ^ 16) :
    (cn.dataType ∈ [SQLT_CHR, SQLT_AFC, SQLT_VCS, SQLT_AVC] →
      definesMalloc lobBufferSize cn indrlenptr i w SQLT_CHR (4 * cn.dataSize)
        (4 * cn.dataSize + 1)) ∧
    (cn.dataType = SQLT_BIN →
      definesMalloc lobBufferSize cn indrlenptr i w SQLT_BIN cn.dataSize cn.dataSize) ∧
    (cn.dataType = SQLT_INT → definesMalloc lobBufferSize cn indrlenptr i w SQLT_INT 8 8) ∧
    (cn.dataType ∈ [SQLT_BFLOAT, SQLT_IBFLOAT, SQLT_BDOUBLE, SQLT_IBDOUBLE] →
      definesMalloc lobBufferSize cn indrlenptr i w SQLT_BDOUBLE 8 8) ∧
    (cn.dataType = SQLT_LNG → definesMalloc lobBufferSize cn indrlenptr i w SQLT_BIN 2000 2000) ∧
    (cn.dataType = SQLT_RDD → definesMalloc lobBufferSize cn indrlenptr i w SQLT_CHR 41 41) ∧
    (cn.dataType ∉ recognisedTypes →
      definesMalloc lobBufferSize cn indrlenptr i w SQLT_CHR
        (((cn.dataSize + 1) % 2 ^ 32 : Nat) : Int) (cn.dataSize + 1)) := by
  have h8 : toSizeT 8 = 8 := by decide
  have h2000 : toSizeT 2000 = 2000 := by decide
  have hdt : cn.dataType % 2 ^ 16 = cn.dataType := Nat.mod_eq_of_lt ht
  have hds : toUb4 cn.dataSize = cn.dataSize := Nat.mod_eq_of_lt hd
  have h4 : wrapInt64 ((cn.dataSize : Int) * 4) = ((4 * cn.dataSize : Nat) : Int) := by
    rw [wrapInt64_of_range] <;> push_cast <;> omega
  refine ⟨?_, ?_, ?_, ?_, ?_, ?_, ?_⟩
  · intro hm
    apply describeColumn_malloc_aux _ _ _ _ _ hok
    intro col w0
    rw [hdt, hds]
    unfold defineSwitch
    have hm' : cn.dataType = SQLT_CHR ∨ cn.dataType = SQLT_AFC ∨ cn.dataType = SQLT_VCS
        ∨ cn.dataType = SQLT_AVC := by simpa using hm
    rw [if_pos hm']
    simp only [h4]
    rw [toSizeT_ofNat _ (by omega), Nat.mod_eq_of_lt (by omega)]
    push_cast
    rfl
  · intro hm
    apply describeColumn_malloc_aux _ _ _ _ _ hok
    intro col w0
    rw [hdt, hds]
    unfold defineSwitch
    simp [hm, SQLT_CHR, SQLT_AFC, SQLT_VCS, SQLT_AVC, SQLT_BIN]
    rw [toSizeT_ofNat _ (by omega)]
  · intro hm
    apply describeColumn_malloc_aux _ _ _ _ _ hok
    intro col w0
    rw [hdt, hds]
    unfold defineSwitch
    simp [hm, SQLT_CHR, SQLT_AFC, SQLT_VCS, SQLT_AVC, SQLT_BIN, SQLT_NUM, SQLT_INT, h8]
  · intro hm
    apply describeColumn_malloc_aux _ _ _ _ _ hok
    intro col w0
    rw [hdt, hds]
    unfold defineSwitch
    have hm' : cn.dataType = SQLT_BFLOAT ∨ cn.dataType = SQLT_IBFLOAT ∨ cn.dataType = SQLT_BDOUBLE
        ∨ cn.dataType = SQLT_IBDOUBLE := by simpa using hm
    rcases hm' with h | h | h | h <;>
      simp [h, SQLT_CHR, SQLT_AFC, SQLT_VCS, SQLT_AVC, SQLT_BIN, SQLT_NUM, SQLT_INT, SQLT_BFLOAT,
        SQLT_IBFLOAT, SQLT_BDOUBLE, SQLT_IBDOUBLE, h8]
  · intro hm
    apply describeColumn_malloc_aux _ _ _ _ _ hok
    intro col w0
    rw [hdt, hds]
    unfold defineSwitch
    simp [hm, SQLT_CHR, SQLT_AFC, SQLT_VCS, SQLT_AVC, SQLT_BIN, SQLT_NUM, SQLT_INT, SQLT_BFLOAT,
        SQLT_IBFLOAT, SQLT_BDOUBLE, SQLT_IBDOUBLE, SQLT_LNG, h2000]
  · intro hm
    apply describeColumn_malloc_aux _ _ _ _ _ hok
    intro col w0
    rw [hdt, hds]
    unfold defineSwitch
    simp [hm, SQLT_CHR, SQLT_AFC, SQLT_VCS, SQLT_AVC, SQLT_BIN, SQLT_NUM, SQLT_INT, SQLT_BFLOAT,
        SQLT_IBFLOAT, SQLT_BDOUBLE, SQLT_IBDOUBLE, SQLT_LNG, SQLT_CLOB, SQLT_BLOB, SQLT_TIMESTAMP,
        SQLT_DAT, SQLT_TIMESTAMP_TZ, SQLT_TIMESTAMP_LTZ, SQLT_INTERVAL_DS, SQLT_INTERVAL_YM,
        SQLT_RDD, toUb4]
  · intro hm
    apply describeColumn_malloc_aux _ _ _ _ _ hok
    intro col w0
    rw [hdt, hds]
    unfold defineSwitch
    simp only [recognisedTypes, List.mem_cons, List.mem_singleton, not_or, List.mem_nil_iff,
      or_false] at hm
    obtain ⟨a1, a2, a3, a4, a5, a6, a7, a8, a9, a10, a11, a12, a13, a14, a15, a16, a17, a18, a19,
      a20, a21⟩ := hm
    simp only [a1, a2, a3, a4, a5, a6, a7, a8, a9, a10, a11, a12, a13, a14, a15, a16, a17, a18,
      a19, a20, a21, or_self, if_false, toUb4]
    rw [Nat.mod_eq_of_lt (a := cn.dataSize + 1) (b := 2 ^ 64) (by omega)]

/-- Witness of C8: a character column of 10 bytes is defined with size 40 over
41 bytes. -/
theorem column_buffer_sizes_witness :
    (ColNative.ok SQLT_CHR 10 0 0).succeeds ∧
    definesMalloc 4000 (ColNative.ok SQLT_CHR 10 0 0) 0 0 World.empty SQLT_CHR 40 41 :=
  ⟨by decide,
   (column_buffer_sizes 4000 (ColNative.ok SQLT_CHR 10 0 0) 0 0 World.empty (by decide)
      (by decide) (by decide)).1 (by decide)⟩

/-- In the column describer the streaming buffer of a CLOB or BLOB column does
not depend on the reported size: the switch compares `oci8cols[i].size`, which
is still the zero value, with `lobBufferSize`, so for a positive default the
descriptor is requested with the pointer and `ub4` header plus the default. -/
theorem lob_buffer_is_default (lobBufferSize : Int) (cn : ColNative) (indrlenptr i : Nat)
    (w : World) (hok : cn.succeeds) (hlob : cn.dataType = SQLT_CLOB ∨ cn.dataType = SQLT_BLOB)
    (hpos : 0 < lobBufferSize) (hmax : lobBufferSize + 12 < 2 ^ 63) :
    ∃ col w', describeColumn lobBufferSize cn indrlenptr i w = Step.next col w' ∧
      col.kind = cn.dataType ∧ col.size = 8 ∧
      ∃ p, col.pbuf = some p ∧
        w'.heap.live = w.heap.live ++
          [{ addr := p, size := (12 + lobBufferSize).toNat, data := [] }] := by
  obtain ⟨h1, h2, h3, h4, -, -, h7, h8⟩ := hok
  have hw : wrapInt64 (12 + lobBufferSize) = 12 + lobBufferSize := by
    apply wrapInt64_of_range <;> omega
  have hs : toSizeT (12 + lobBufferSize) = (12 + lobBufferSize).toNat := by
    unfold toSizeT
    rw [Int.emod_eq_of_lt (by omega) (by omega)]
  unfold describeColumn
  rcases hlob with hl | hl <;>
  · simp [getError, h1, h2, h3, h4, h7, h8, hl, defineSwitch, descriptorCol, Heap.alloc,
      oci8col.zero, hpos, sizeOfNilPointer, hw, hs,
      SQLT_CHR, SQLT_AFC, SQLT_VCS, SQLT_AVC, SQLT_BIN, SQLT_NUM, SQLT_INT, SQLT_BFLOAT,
      SQLT_IBFLOAT, SQLT_BDOUBLE, SQLT_IBDOUBLE, SQLT_LNG, SQLT_CLOB, SQLT_BLOB, OCI_SUCCESS]
    exact ⟨_, _, ⟨rfl, rfl⟩, rfl, rfl, _, rfl, rfl⟩

/-- C9 (the code at the failing input): with the default `lobBufferSize = 4000`,
a CLOB column of reported size 5000 is given a descriptor with `12 + 4000`
bytes, not `12 + 5000`. -/
theorem lob_buffer_at_5000 :
    describeColumn 4000 (ColNative.ok SQLT_CLOB 5000 0 0) 1 0
      { heap := { next := 2, live := [{ addr := 1, size := 4, data := [] }] }, log := [] }
    = Step.next { name := [], kind := SQLT_CLOB, size := 8, pbuf := some 2, slot := some 0 }
        { heap := { next := 3, live := [{ addr := 1, size := 4, data := [] },
                                        { addr := 2, size := 4012, data := [] }] },
          log := [Event.descriptorAlloc 4012, Event.defineByPos 1 (some 2) 8 SQLT_CLOB] } := by
  rfl

/-! ### `bind`: structure of a successful run -/

/-- A status other than success gives an error. -/
theorem getError_ne_none {rv : Int} (h : rv ≠ OCI_SUCCESS) : getError rv ≠ none := by
  simp [getError, h]

/-- An early return of the timestamp arm carries an error. -/
theorem bindTime_ret_some {nat : BindNative} {bp : List oci8bind} {sbind : oci8bind} {v : GoTime}
    {w w' : World} {err : Option GoError}
    (h : bindTime nat bp sbind v w = Step.ret err w') : err ≠ none := by
  simp only [bindTime, Heap.alloc] at h
  split_ifs at h <;> first
    | (cases h; done)
    | (cases h; simp_all [getError])

/-- An early return of the type switch carries an error. -/
theorem bindSwitch_ret_some {nat : BindNative} {i : Nat} {bp : List oci8bind} {sbind : oci8bind}
    {vv : GoValue} {w w' : World} {err : Option GoError}
    (h : bindSwitch nat i bp sbind vv w = Step.ret err w') : err ≠ none := by
  cases vv with
  | time t => exact bindTime_ret_some h
  | integer k v =>
    simp only [bindSwitch] at h
    split at h
    · cases h; simp
    · cases h
  | float32 b => simp [bindSwitch, binaryWrite, CByte, Heap.alloc] at h
  | float64 b => simp [bindSwitch, binaryWrite, CByte, Heap.alloc] at h
  | other d c =>
    simp only [bindSwitch] at h
    split at h <;> cases h
  | _ => simp [bindSwitch, CByte, CString, Heap.alloc] at h

/-- An early return of the loop body before registration carries an error. -/
theorem bindBuild_ret_some {nat : BindNative} {i : Nat} {uv : namedValue} {bp : List oci8bind}
    {w w' : World} {err : Option GoError}
    (h : bindBuild nat i uv bp w = Step.ret err w') : err ≠ none := by
  unfold bindBuild at h
  split at h
  · exact bindSwitch_ret_some h
  · split at h
    · cases h; simp
    · exact bindSwitch_ret_some h

/-- When the loop of `bind` ends without error, it has appended one descriptor
per argument, each built by the loop body for that argument. -/
theorem bindLoop_ok (stmt : OCI8Stmt) (nat : Nat → BindNative) :
    ∀ (args : List namedValue) (i : Nat) (acc : List oci8bind) (w : World)
      (bound : List oci8bind) (w' : World),
      bindLoop stmt nat i args acc w = ((bound, none), w') →
      ∃ ds, bound = acc ++ ds ∧
        List.Forall₂ (fun uv d => ∃ j bp w0 w1, bindBuild (nat j) j uv bp w0 = Step.next d w1)
          args ds := by
  intro args
  induction args with
  | nil =>
    intro i acc w bound w' h
    simp [bindLoop] at h
    exact ⟨[], by simp [h.1], List.Forall₂.nil⟩
  | cons uv rest ih =>
    intro i acc w bound w' h
    unfold bindLoop at h
    split at h
    · rename_i err w1 hb
      have := bindBuild_ret_some hb
      simp at h
      exact absurd h.1.2 this
    · rename_i sbind w1 hb
      simp only at h
      split at h
      · rename_i hn
        split at h
        · rename_i he
          simp at h
          exact absurd h.1.2 he
        · obtain ⟨ds, hds, hf⟩ := ih _ _ _ _ _ h
          exact ⟨sbind :: ds, by simp [hds], List.Forall₂.cons ⟨i, acc, w, w1, hb⟩ hf⟩
      · split at h
        · rename_i he
          simp at h
          exact absurd h.1.2 he
        · obtain ⟨ds, hds, hf⟩ := ih _ _ _ _ _ h
          exact ⟨sbind :: ds, by simp [hds], List.Forall₂.cons ⟨i, acc, w, w1, hb⟩ hf⟩

/-- When `bind` returns no error, its descriptors correspond one to one to the
arguments, each built by the loop body for its argument. -/
theorem bind_ok (stmt : OCI8Stmt) (nat : Nat → BindNative) (args : List namedValue) (w : World)
    (bound : List oci8bind) (w' : World) (h : stmt.bind nat args w = ((bound, none), w')) :
    List.Forall₂ (fun uv d => ∃ j bp w0 w1, bindBuild (nat j) j uv bp w0 = Step.next d w1)
      args bound := by
  unfold OCI8Stmt.bind at h
  split at h
  · rename_i h0
    have : args = [] := List.length_eq_zero.mp h0
    simp at h
    rw [this, h.1]
    exact List.Forall₂.nil
  · obtain ⟨ds, hds, hf⟩ := bindLoop_ok stmt nat args 0 [] w bound w' h
    simpa [hds] using hf

/-! ### `bind`: the null indicator -/

/-- The null indicator the type switch sets for nil and for strings. -/
theorem bindSwitch_null {nat : BindNative} {j : Nat} {bp : List oci8bind} {sbind d : oci8bind}
    {vv : GoValue} {w0 w1 : World} (h0 : sbind.indicator = 0)
    (h : bindSwitch nat j bp sbind vv w0 = Step.next d w1) :
    (vv = .nil → d.kind = SQLT_STR ∧ d.clen = 0 ∧ d.pbuf = none ∧ d.indicator = -1) ∧
    (vv = .str [] → d.indicator = -1) ∧
    (∀ s, vv = .str s → s ≠ [] → d.indicator = 0) := by
  refine ⟨?_, ?_, ?_⟩
  · rintro rfl
    simp [bindSwitch] at h
    rw [← h.1]; simp
  · rintro rfl
    simp [bindSwitch, CString, Heap.alloc] at h
    rw [← h.1]
  · rintro s rfl hs
    simp [bindSwitch, CString, Heap.alloc, hs] at h
    rw [← h.1]
    split <;> simp [h0]

/-- The null indicator the loop body sets, in terms of the value dispatched on. -/
theorem bindBuild_null {nat : BindNative} {j : Nat} {uv : namedValue} {bp : List oci8bind}
    {d : oci8bind} {w0 w1 : World} (h : bindBuild nat j uv bp w0 = Step.next d w1) :
    ∃ vv, dispatchValue uv.Value = .ok vv ∧
      (vv = .nil → d.kind = SQLT_STR ∧ d.clen = 0 ∧ d.pbuf = none ∧ d.indicator = -1) ∧
      (vv = .str [] → d.indicator = -1) ∧
      (∀ s, vv = .str s → s ≠ [] → d.indicator = 0) := by
  unfold bindBuild at h
  split at h
  · rename_i vv hv
    exact ⟨vv, by simp [hv, dispatchValue], bindSwitch_null rfl h⟩
  · rename_i dest hv
    split at h
    · cases h
    · rename_i vv hc
      exact ⟨vv, by simp [hv, dispatchValue, hc], bindSwitch_null rfl h⟩

/-- C3: when `bind` succeeds there is one descriptor per argument, and for every
argument, with `vv` the value dispatched on (the input value, or the converted
`Dest` of an output parameter): if `vv` is nil the descriptor has tag STR,
length 0, no buffer and indicator -1; if `vv` is the empty string the indicator
is -1; if `vv` is a non-empty string the indicator is 0. -/
theorem bind_null_indicator (stmt : OCI8Stmt) (nat : Nat → BindNative) (args : List namedValue)
    (w : World) (bound : List oci8bind) (w' : World)
    (h : stmt.bind nat args w = ((bound, none), w')) :
    bound.length = args.length ∧
    ∀ (i : Nat) (hi : i < args.length) (hb : i < bound.length),
      ∃ vv, dispatchValue (args.get ⟨i, hi⟩).Value = .ok vv ∧
        (vv = .nil →
          (bound.get ⟨i, hb⟩).kind = SQLT_STR ∧ (bound.get ⟨i, hb⟩).clen = 0 ∧
          (bound.get ⟨i, hb⟩).pbuf = none ∧ (bound.get ⟨i, hb⟩).indicator = -1) ∧
        (vv = .str [] → (bound.get ⟨i, hb⟩).indicator = -1) ∧
        (∀ s, vv = .str s → s ≠ [] → (bound.get ⟨i, hb⟩).indicator = 0) := by
  have hf := bind_ok stmt nat args w bound w' h
  rw [List.forall₂_iff_get] at hf
  refine ⟨hf.1.symm, ?_⟩
  intro i hi hb
  obtain ⟨j, bp, w0, w1, hbuild⟩ := hf.2 i hi hb
  exact bindBuild_null hbuild

/-! ### `bind`: the fixed-offset zone text -/

/-- The step of `parseDecimal`. -/
theorem parseDecimal_eq (ds : List Nat) (hne : ds ≠ []) :
    parseDecimal ds = ds.foldl
      (fun acc d => match acc with
        | some a => if 48 ≤ d ∧ d ≤ 57 then some (a * 10 + (d - 48)) else none
        | none => none) (some 0) := by
  simp [parseDecimal, hne]

/-- The decimal text is never empty. -/
theorem decimalAux_ne_nil (fuel n : Nat) : decimalAux fuel n ≠ [] := by
  cases fuel with
  | zero => simp [decimalAux]
  | succ f =>
    unfold decimalAux
    split <;> simp

/-- The decimal text consists of ASCII digits. -/
theorem decimalAux_digits (fuel : Nat) : ∀ n, ∀ d ∈ decimalAux fuel n, 48 ≤ d ∧ d ≤ 57 := by
  induction fuel with
  | zero =>
    intro n d hd
    simp [decimalAux] at hd
    omega
  | succ f ih =>
    intro n d hd
    unfold decimalAux at hd
    split at hd
    · simp at hd; omega
    · simp at hd
      rcases hd with hd | hd
      · exact ih _ _ hd
      · omega

/-- Reading the decimal text of `n` after the digits of `acc` gives
`acc * 10^length + n`, when the fuel covers the digits of `n`. -/
theorem decimalAux_fold (fuel : Nat) : ∀ n acc, n < 10 ^ (fuel + 1) →
    (decimalAux fuel n).foldl
      (fun acc d => match acc with
        | some a => if 48 ≤ d ∧ d ≤ 57 then some (a * 10 + (d - 48)) else none
        | none => none) (some acc)
    = some (acc * 10 ^ (decimalAux fuel n).length + n) := by
  induction fuel with
  | zero =>
    intro n acc hn
    have : n % 10 = n := Nat.mod_eq_of_lt (by simpa using hn)
    simp [decimalAux, this]
    omega
  | succ f ih =>
    intro n acc hn
    unfold decimalAux
    split
    · rename_i h10
      simp
      omega
    · rename_i h10
      have hq : n / 10 < 10 ^ (f + 1) := by
        rw [Nat.div_lt_iff_lt_mul (by norm_num)]
        calc n < 10 ^ (f + 1 + 1) := hn
          _ = 10 ^ (f + 1) * 10 := by ring
      rw [List.foldl_append, ih _ _ hq]
      have hd : 48 ≤ 48 + n % 10 ∧ 48 + n % 10 ≤ 57 := by omega
      simp only [List.foldl_cons, List.foldl_nil, hd, and_self, if_true, List.length_append,
        List.length_singleton]
      congr 1
      have : 48 + n % 10 - 48 = n % 10 := by omega
      rw [this, pow_succ]
      have := Nat.div_add_mod n 10
      nlinarith [Nat.div_add_mod n 10]

/-- Leading zeros read as zero. -/
theorem zeros_fold (k : Nat) :
    (List.replicate k 48).foldl
      (fun acc d => match acc with
        | some a => if 48 ≤ d ∧ d ≤ 57 then some (a * 10 + (d - 48)) else none
        | none => none) (some 0) = some 0 := by
  induction k with
  | zero => rfl
  | succ k ih => simp [List.replicate_succ, ih]

/-- The text of `%02d` for a non-negative number reads back as that number. -/
theorem parseDecimal_fmt02d (n : Int) (hn : 0 ≤ n) : parseDecimal (fmt02d n) = some n.toNat := by
  have hlt : n.toNat < 10 ^ (n.toNat + 1) :=
    lt_of_lt_of_le (Nat.lt_pow_self (by norm_num) _) (Nat.pow_le_pow_right (by norm_num) (by omega))
  unfold fmt02d
  rw [if_neg (by omega)]
  rw [parseDecimal_eq _ (by simp [decimal, decimalAux_ne_nil])]
  have hz : ch '0' = 48 := rfl
  rw [List.foldl_append, hz, zeros_fold, decimal, decimalAux_fold _ _ _ hlt]
  simp

/-- The text of `%02d` for a non-negative number holds no colon. -/
theorem fmt02d_no_colon (n : Int) (hn : 0 ≤ n) : ∀ d ∈ fmt02d n, d ≠ ch ':' := by
  intro d hd
  have hc : ch ':' = 58 := rfl
  have hz : ch '0' = 48 := rfl
  unfold fmt02d at hd
  rw [if_neg (by omega)] at hd
  rw [hc]
  simp only [List.mem_append, List.mem_replicate] at hd
  rcases hd with hd | hd
  · rw [hd.2, hz]; omega
  · have := decimalAux_digits _ _ _ hd
    omega

/-- The zone text of the retry path encodes the offset truncated to whole
minutes. -/
theorem retryZone_decode (o : Int) (h1 : -2 ^ 63 < o) (h2 : o < 2 ^ 63) :
    specDecodeZone (retryZone o) = some (o.tdiv 60 * 60) := by
  have hp : ch '+' = 43 := rfl
  have hm : ch '-' = 45 := rfl
  have key : ∀ (s : Nat) (a : Int), (s = 43 ∨ s = 45) → 0 ≤ a →
      specDecodeZone (s :: (fmt02d ((a.tdiv 60).tdiv 60) ++ ch ':' :: fmt02d ((a.tdiv 60).tmod 60)))
        = some ((if s = 45 then -1 else 1) * (a.tdiv 60 * 60)) := by
    intro s a hs ha
    have hq : 0 ≤ a.tdiv 60 := Int.tdiv_nonneg ha (by norm_num)
    have hh : 0 ≤ (a.tdiv 60).tdiv 60 := Int.tdiv_nonneg hq (by norm_num)
    have hmm : 0 ≤ (a.tdiv 60).tmod 60 := Int.tmod_nonneg _ hq
    have hsplit := Int.tdiv_add_tmod' (a.tdiv 60) 60
    unfold specDecodeZone
    have hs' : ¬ (s ≠ ch '+' ∧ s ≠ ch '-') := by rw [hp, hm]; omega
    simp only [hs', if_false]
    have hpos : ∀ d ∈ fmt02d ((a.tdiv 60).tdiv 60), (fun c => decide (c ≠ ch ':')) d = true := by
      intro d hd
      simpa using fmt02d_no_colon _ hh d hd
    rw [List.takeWhile_append_of_pos hpos, List.dropWhile_append_of_pos hpos]
    simp only [ne_eq, not_true_eq_false, decide_False, List.takeWhile_cons_of_neg,
      List.append_nil, List.dropWhile_cons_of_neg, List.drop_succ_cons, List.drop_zero,
      Bool.false_eq_true, not_false_eq_true]
    rw [parseDecimal_fmt02d _ hh, parseDecimal_fmt02d _ hmm]
    simp only [hm]
    rw [Int.toNat_of_nonneg hh, Int.toNat_of_nonneg hmm]
    congr 1
    linear_combination (if s = 45 then (-1 : Int) else 1) * 60 * hsplit
  unfold retryZone
  by_cases hneg : o < 0
  · have hw : wrapInt64 (-o) = -o := wrapInt64_of_range _ (by omega) (by omega)
    simp only [hneg, if_true, hw, hm]
    rw [key 45 (-o) (Or.inr rfl) (by omega)]
    simp only [if_true]
    rw [Int.neg_tdiv]
    ring_nf
  · simp only [hneg, if_false, hp]
    rw [key 43 o (Or.inl rfl) (by omega)]
    simp

/-- C6 (amended): for every zone offset `o` in the range of a Go `int` that is a
whole number of minutes (`o mod 60 = 0`), the zone text built on the retry path
of timestamp binding decodes, as `sign * (HH * 3600 + MM * 60)`, to exactly
`o`. -/
theorem retryZone_roundtrip (o : Int) (h1 : -2 ^ 63 ≤ o) (h2 : o < 2 ^ 63) (h60 : o % 60 = 0) :
    specDecodeZone (retryZone o) = some o := by
  have hne : o ≠ -2 ^ 63 := by
    intro h
    rw [h] at h60
    norm_num at h60
  rw [retryZone_decode o (by omega) h2]
  congr 1
  exact Int.tdiv_mul_cancel (Int.dvd_of_emod_eq_zero h60)

/-- C6 (counterexample): for the offset of 30 seconds the retry path builds
`+00:00`, which decodes to 0 and not to 30. -/
theorem retryZone_drops_seconds : specDecodeZone (retryZone 30) = some 0 ∧
    specDecodeZone (retryZone 30) ≠ some 30 := by
  constructor
  · rfl
  · decide

/-! ### `exec` and `query`: the status of the execute call -/

/-- A read of `n` bytes gives `n` bytes. -/
theorem readBuf_length (h : Heap) (p n : Nat) : (readBuf h p n).length = n := by
  unfold readBuf
  split <;> simp

/-- The body of the output loop neither fails nor panics on a descriptor whose
nil-pointer slot has no buffer: the float read always has its 8 bytes. -/
theorem outputOne_ok (i : Nat) (col : oci8bind) (h : Heap) (m : Slots)
    (hcol : ∀ b, col.out = some (Dest.nilPtr b) → col.pbuf = none) :
    ∃ m', outputOne i col h m = (Outcome.ret (some ()) none, m') := by
  have hread : ∀ p, ∃ data, binaryReadFloat64 (readBuf h p 8) = some data := by
    intro p
    simp [binaryReadFloat64, readBuf_length]
  unfold outputOne
  cases hp : col.pbuf with
  | none => exact ⟨m, rfl⟩
  | some p =>
    simp only
    cases ho : col.out with
    | none => exact ⟨m, rfl⟩
    | some dest =>
      cases dest with
      | nilPtr b =>
        have := hcol b ho
        rw [hp] at this
        cases this
      | val v => exact ⟨m, rfl⟩
      | ptr addr elem =>
        cases elem with
        | str s => simp only; split <;> exact ⟨_, rfl⟩
        | integer k v => simp only; split <;> exact ⟨_, rfl⟩
        | float64 b =>
          obtain ⟨data, hdata⟩ := hread p
          simp only [hdata]
          exact ⟨_, rfl⟩
        | float32 b =>
          obtain ⟨data, hdata⟩ := hread p
          simp only [hdata]
          exact ⟨_, rfl⟩
        | bool b => exact ⟨_, rfl⟩
        | nil => exact ⟨m, rfl⟩
        | bytes b => exact ⟨m, rfl⟩
        | time t => exact ⟨m, rfl⟩
        | other r c => exact ⟨m, rfl⟩

/-- The little-endian encoding in `w` bytes has `w` bytes. -/
theorem leBytes_length (w n : Nat) : (leBytes w n).length = w := by
  induction w generalizing n with
  | zero => rfl
  | succ w ih => simp [leBytes, ih]

/-- The valid part of C4: an integer of a fixed-size type (`int8` ... `int64`,
`uint8` ... `uint64`) whose registration succeeds is bound as INT over a fresh
buffer that holds its little-endian encoding, of the natural width of its
type. -/
theorem bind_fixed_width_integer (stmt : OCI8Stmt) (nat : Nat → BindNative) (k : IntKind)
    (v : Int) (name : GoString) (ordinal : Int) (w : World) (n : Nat)
    (hk : k.binarySize = some n) (hreg : (nat 0).bindRv = OCI_SUCCESS) :
    (stmt.bind nat [{ Name := name, Ordinal := ordinal, Value := .plain (.integer k v) }] w).1
        = ([{ kind := SQLT_INT, clen := n, pbuf := some w.heap.next, indicator := 0,
              out := none }], none) ∧
      n = k.width ∧
      (stmt.bind nat [{ Name := name, Ordinal := ordinal, Value := .plain (.integer k v) }] w).2.heap.live
        = w.heap.live ++ [{ addr := w.heap.next, size := n, data := leEncode n v }] := by
  have hn : n = k.width := by
    cases k <;> simp [IntKind.binarySize] at hk <;> simp [IntKind.width, hk]
  have hn8 : n ≤ 8 := by
    rw [hn]; cases k <;> simp [IntKind.width]
  have hsb : toSb4 (n : Int) = n := by
    unfold toSb4
    rw [Int.emod_eq_of_lt (by omega) (by omega)]
    omega
  refine ⟨?_, hn, ?_⟩ <;>
  · by_cases hname : name = [] <;>
    simp [OCI8Stmt.bind, bindLoop, bindBuild, bindSwitch, binaryWrite, hk, CByte, Heap.alloc,
      ociBindByPos, ociBindByName, getError, hreg, hname, leEncode, leBytes_length, hsb,
      oci8bind.zero]

/-- The valid part of C4 for booleans: a boolean whose registration succeeds is
bound as INT over a fresh one-byte buffer holding 1 for true and 0 for false. -/
theorem bind_bool (stmt : OCI8Stmt) (nat : Nat → BindNative) (b : Bool) (name : GoString)
    (ordinal : Int) (w : World) (hreg : (nat 0).bindRv = OCI_SUCCESS) :
    (stmt.bind nat [{ Name := name, Ordinal := ordinal, Value := .plain (.bool b) }] w).1
        = ([{ kind := SQLT_INT, clen := 1, pbuf := some w.heap.next, indicator := 0,
              out := none }], none) ∧
      (stmt.bind nat [{ Name := name, Ordinal := ordinal, Value := .plain (.bool b) }] w).2.heap.live
        = w.heap.live ++ [{ addr := w.heap.next, size := 1, data := [if b then 1 else 0] }] := by
  have hsb : toSb4 1 = 1 := by decide
  constructor <;>
  · by_cases hname : name = [] <;> cases b <;>
    simp [OCI8Stmt.bind, bindLoop, bindBuild, bindSwitch, CByte, Heap.alloc,
      ociBindByPos, ociBindByName, getError, hreg, hname, hsb, oci8bind.zero]

/-- On the retry path of timestamp binding (the first construct call is rejected
or the engine's zone offset differs) the zone text handed to the second
construct call is `retryZone` of the value's offset. -/
theorem bindTime_retry_zone (nat : BindNative) (bp : List oci8bind) (sbind : oci8bind)
    (v : GoTime) (w : World) (halloc : nat.descriptorAllocRv = OCI_SUCCESS)
    (hretry : nat.construct1Rv ≠ OCI_SUCCESS ∨
      (nat.zoneOffsetRv = OCI_SUCCESS ∧ v.offset ≠ nat.zoneH * 60 * 60 + nat.zoneM * 60))
    (h2 : nat.construct2Rv = OCI_SUCCESS) :
    ∃ d w', bindTime nat bp sbind v w = Step.next d w' ∧ d.kind = SQLT_TIMESTAMP_TZ ∧
      w'.log = w.log ++ [Event.descriptorAlloc
          ((if v.zone.length < 8 then 8 else v.zone.length) + sizeOfNilPointer),
        Event.dateTimeConstruct v.zone, Event.dateTimeConstruct (retryZone v.offset)] := by
  simp only [bindTime, Heap.alloc, halloc, h2, ne_eq, not_true_eq_false, if_false]
  rcases hretry with h | ⟨hz, ho⟩
  · simp only [h, false_and, if_false, not_false_eq_true, if_true]
    exact ⟨_, _, rfl, rfl, by simp⟩
  · by_cases h1 : nat.construct1Rv = OCI_SUCCESS
    · simp only [h1, hz, not_true_eq_false, and_false, if_false, ho, not_false_eq_true,
        decide_True, if_true]
      exact ⟨_, _, rfl, rfl, by simp⟩
    · simp only [h1, false_and, if_false, not_false_eq_true, if_true]
      exact ⟨_, _, rfl, rfl, by simp⟩

/-! ### `bind`: evaluations -/

/-- C2 (the code at the failing input): `bind` of the two arguments `"A"` and
`int64(7)`, when the registration of the second one is rejected, returns the
error and leaves both buffers allocated: the deferred call frees `stmt.pbind`
(empty), not the accumulated list. -/
theorem bind_registration_failure_leaks :
    openStmt.bind (fun i => if i = 1 then { BindNative.allOk with bindRv := OCI_ERROR }
        else BindNative.allOk)
      [arg 1 (.str [65]), arg 2 (.integer .int64 7)] World.empty
    = (([], some (GoError.native OCI_ERROR)),
       { heap := { next := 3, live := [{ addr := 1, size := 2, data := [65, 0] },
                                       { addr := 2, size := 8, data := [7, 0, 0, 0, 0, 0, 0, 0] }] },
         log := [Event.bindByPos 1 (some 1) 1 SQLT_AFC 0,
                 Event.bindByPos 2 (some 2) 8 SQLT_INT 0] }) ∧
    (openStmt.bind (fun i => if i = 1 then { BindNative.allOk with bindRv := OCI_ERROR }
        else BindNative.allOk)
      [arg 1 (.str [65]), arg 2 (.integer .int64 7)] World.empty).2.allocated = 2 := by
  constructor <;> rfl

/-- A second path of the defect of C2: an encoding error (`int` is not a
fixed-size type) returns without any free, so the buffer of the first argument
stays allocated. -/
theorem bind_encode_error_leaks :
    openStmt.bind (fun _ => BindNative.allOk)
      [arg 1 (.integer .int64 7), arg 2 (.integer .int 7)] World.empty
    = (([], some (GoError.binaryColumn 1)),
       { heap := { next := 2, live := [{ addr := 1, size := 8, data := [7, 0, 0, 0, 0, 0, 0, 0] }] },
         log := [Event.bindByPos 1 (some 1) 8 SQLT_INT 0] }) := by
  rfl

/-- A third path of the defect of C2: when the second construct call of the
timestamp arm is rejected, the accumulated list is freed but the descriptor of
the failing argument, not yet in the list, stays allocated. -/
theorem bind_timestamp_failure_leaks :
    (openStmt.bind (fun _ => { BindNative.allOk with construct1Rv := OCI_ERROR,
                                                     construct2Rv := OCI_ERROR })
      [arg 1 (.time { year := 2020, month := 1, day := 1, hour := 0, minute := 0, second := 0,
                      nanosecond := 0, zone := [67, 69, 84], offset := 3600 })]
      World.empty).1 = ([], some (GoError.native OCI_ERROR)) ∧
    (openStmt.bind (fun _ => { BindNative.allOk with construct1Rv := OCI_ERROR,
                                                     construct2Rv := OCI_ERROR })
      [arg 1 (.time { year := 2020, month := 1, day := 1, hour := 0, minute := 0, second := 0,
                      nanosecond := 0, zone := [67, 69, 84], offset := 3600 })]
      World.empty).2.allocated = 1 := by
  constructor <;> rfl

/-- The path of `bind` that does free: when the conversion of an output `Dest`
fails, the buffers of the descriptors accumulated so far are released. -/
theorem bind_conversion_error_frees :
    openStmt.bind (fun _ => BindNative.allOk)
      [arg 1 (.str [65]),
       { Name := [], Ordinal := 2, Value := .out (some (.val (.integer .uint64 (2 ^ 63)))) }]
      World.empty
    = (([], some GoError.convert),
       { heap := { next := 2, live := [] }, log := [Event.bindByPos 1 (some 1) 1 SQLT_AFC 0] }) := by
  rfl

/-- An output parameter whose `Dest` the default converter returns as it is (a
decimal) reaches the default arm of the switch with its output slot set and is
bound as STR with the null indicator and no buffer. -/
theorem bind_unconverted_output_is_null :
    openStmt.bind (fun _ => BindNative.allOk)
      [{ Name := [], Ordinal := 1, Value := .out (some (.val (.other [49] .same))) }] World.empty
    = (([{ kind := SQLT_STR, clen := 0, pbuf := none, indicator := -1,
           out := some (.val (.other [49] .same)) }], none),
       { heap := Heap.empty, log := [Event.bindByPos 1 none 0 SQLT_STR (-1)] }) := by
  rfl

/-- Witness of C3: nil, the empty string, a non-empty string, an empty and a
non-empty string as named output parameters, and a value of a named string type
as output parameter. -/
theorem bind_null_indicator_witness :
    (openStmt.bind (fun _ => BindNative.allOk) sampleArgs World.empty).1
      = ([{ kind := SQLT_STR, clen := 0, pbuf := none, indicator := -1, out := none },
          { kind := SQLT_AFC, clen := 0, pbuf := some 1, indicator := -1, out := none },
          { kind := SQLT_AFC, clen := 1, pbuf := some 2, indicator := 0, out := none },
          { kind := SQLT_STR, clen := 1, pbuf := some 3, indicator := -1,
            out := some (.ptr 9 (.str [])) },
          { kind := SQLT_STR, clen := 3, pbuf := some 4, indicator := 0,
            out := some (.ptr 10 (.str [66, 67])) },
          { kind := SQLT_STR, clen := 2, pbuf := some 5, indicator := 0,
            out := some (.val (.other [120] (.value (.str [120])))) }], none) ∧
    (openStmt.bind (fun _ => BindNative.allOk) sampleArgs World.empty).1.1.length
      = sampleArgs.length :=
  ⟨rfl, (bind_null_indicator openStmt (fun _ => BindNative.allOk) sampleArgs World.empty
      (openStmt.bind (fun _ => BindNative.allOk) sampleArgs World.empty).1.1
      (openStmt.bind (fun _ => BindNative.allOk) sampleArgs World.empty).2 rfl).1⟩

/-- C4 (the code at the failing input): `bind` of the single argument `int(1)`
returns the encoding error for column 0 and no descriptor, because
`binary.Write` rejects the type `int`. -/
theorem bind_int_rejected :
    openStmt.bind (fun _ => BindNative.allOk) [arg 1 (.integer .int 1)] World.empty
    = (([], some (GoError.binaryColumn 0)), World.empty) := by
  rfl

/-- C5 (the code at the failing input): `bind` of the single argument
`float32(1.5)` gives a descriptor tagged BDOUBLE whose length is 4 and whose
buffer has the 4 bytes of the 32-bit encoding. -/
theorem bind_float32_four_bytes :
    openStmt.bind (fun _ => BindNative.allOk) [arg 1 (.float32 0x3fc00000)] World.empty
    = (([{ kind := SQLT_BDOUBLE, clen := 4, pbuf := some 1, indicator := 0, out := none }], none),
       { heap := { next := 2, live := [{ addr := 1, size := 4, data := [0, 0, 192, 63] }] },
         log := [Event.bindByPos 1 (some 1) 4 SQLT_BDOUBLE 0] }) := by
  rfl

/-- The valid part of C5: a 64-bit float whose registration succeeds is bound as
BDOUBLE over a fresh buffer of 8 bytes. -/
theorem bind_float64 (stmt : OCI8Stmt) (nat : Nat → BindNative) (bits : Nat) (name : GoString)
    (ordinal : Int) (w : World) (hreg : (nat 0).bindRv = OCI_SUCCESS) :
    (stmt.bind nat [{ Name := name, Ordinal := ordinal, Value := .plain (.float64 bits) }] w).1
        = ([{ kind := SQLT_BDOUBLE, clen := 8, pbuf := some w.heap.next, indicator := 0,
              out := none }], none) ∧
      (stmt.bind nat [{ Name := name, Ordinal := ordinal, Value := .plain (.float64 bits) }]
          w).2.heap.live
        = w.heap.live ++ [{ addr := w.heap.next, size := 8, data := leBytes 8 bits }] := by
  have hsb : toSb4 8 = 8 := by decide
  constructor <;>
  · by_cases hname : name = [] <;>
    simp [OCI8Stmt.bind, bindLoop, bindBuild, bindSwitch, binaryWrite, CByte, Heap.alloc,
      ociBindByPos, ociBindByName, getError, hreg, hname, leBytes_length, hsb, oci8bind.zero]

/-- Witness of C6: the offsets of `+05:30` and `-03:30`. -/
theorem retryZone_roundtrip_witness :
    retryZone 19800 = [ch '+', ch '0', ch '5', ch ':', ch '3', ch '0'] ∧
    specDecodeZone (retryZone 19800) = some 19800 ∧
    specDecodeZone (retryZone (-12600)) = some (-12600) :=
  ⟨rfl, retryZone_roundtrip 19800 (by decide) (by decide) (by decide),
   retryZone_roundtrip (-12600) (by decide) (by decide) (by decide)⟩

/-- Freeing bound parameters makes no traced call. -/
theorem freeBoundParameters_log (bp : List oci8bind) (w : World) :
    (freeBoundParameters bp w).log = w.log := by
  unfold freeBoundParameters
  induction bp generalizing w with
  | nil => rfl
  | cons b rest ih =>
    simp only [List.foldl_cons]
    rw [ih]
    split <;> rfl

/-- The execute trace of a concatenation. -/
theorem executeTrace_append (l1 l2 : List Event) :
    executeTrace (l1 ++ l2) = executeTrace l1 ++ executeTrace l2 := by
  simp [executeTrace]

/-- An event that is neither the execute call nor the done signal does not
show in the execute trace. -/
theorem executeTrace_snoc (l : List Event) (e : Event) (h : e.isExecuteStep = false) :
    executeTrace (l ++ [e]) = executeTrace l := by
  simp [executeTrace, List.filter_append, h]

/-- The timestamp arm makes no execute call and gives no done signal. -/
theorem bindTime_trace (nat : BindNative) (bp : List oci8bind) (sbind : oci8bind) (v : GoTime)
    (w : World) :
    (∀ err w', bindTime nat bp sbind v w = Step.ret err w' →
      executeTrace w'.log = executeTrace w.log) ∧
    (∀ d w', bindTime nat bp sbind v w = Step.next d w' →
      executeTrace w'.log = executeTrace w.log) := by
  simp only [bindTime, Heap.alloc]
  constructor
  · intro err w' h
    split_ifs at h <;> first
      | (cases h; done)
      | (cases h; simp [freeBoundParameters_log, executeTrace, List.filter_append,
          Event.isExecuteStep])
  · intro d w' h
    split_ifs at h <;> first
      | (cases h; done)
      | (cases h; simp [freeBoundParameters_log, executeTrace, List.filter_append,
          Event.isExecuteStep])

/-- The type switch makes no execute call and gives no done signal. -/
theorem bindSwitch_trace (nat : BindNative) (i : Nat) (bp : List oci8bind) (sbind : oci8bind)
    (vv : GoValue) (w : World) :
    (∀ err w', bindSwitch nat i bp sbind vv w = Step.ret err w' →
      executeTrace w'.log = executeTrace w.log) ∧
    (∀ d w', bindSwitch nat i bp sbind vv w = Step.next d w' →
      executeTrace w'.log = executeTrace w.log) := by
  cases vv with
  | time t => exact bindTime_trace nat bp sbind t w
  | integer k v =>
    simp only [bindSwitch]
    constructor
    · intro err w' h
      split at h <;> cases h
      rfl
    · intro d w' h
      split at h <;> cases h
      rfl
  | other r c =>
    simp only [bindSwitch]
    constructor
    · intro err w' h
      split at h <;> cases h
    · intro d w' h
      split at h <;> cases h <;> rfl
  | float32 b =>
    constructor
    · intro err w' h; simp [bindSwitch, binaryWrite, CByte, Heap.alloc] at h
    · intro d w' h; simp [bindSwitch, binaryWrite, CByte, Heap.alloc] at h; rw [← h.2]
  | float64 b =>
    constructor
    · intro err w' h; simp [bindSwitch, binaryWrite, CByte, Heap.alloc] at h
    · intro d w' h; simp [bindSwitch, binaryWrite, CByte, Heap.alloc] at h; rw [← h.2]
  | nil =>
    constructor
    · intro err w' h; simp [bindSwitch] at h
    · intro d w' h; simp [bindSwitch] at h; rw [← h.2]
  | bytes b =>
    constructor
    · intro err w' h; simp [bindSwitch, CByte, Heap.alloc] at h
    · intro d w' h; simp [bindSwitch, CByte, Heap.alloc] at h; rw [← h.2]
  | bool b =>
    constructor
    · intro err w' h; simp [bindSwitch, CByte, Heap.alloc] at h
    · intro d w' h; simp [bindSwitch, CByte, Heap.alloc] at h; rw [← h.2]
  | str s =>
    constructor
    · intro err w' h; simp [bindSwitch, CString, Heap.alloc] at h
    · intro d w' h; simp [bindSwitch, CString, Heap.alloc] at h; rw [← h.2]

/-- The loop body of `bind` makes no execute call and gives no done signal. -/
theorem bindBuild_trace (nat : BindNative) (i : Nat) (uv : namedValue) (bp : List oci8bind)
    (w : World) :
    (∀ err w', bindBuild nat i uv bp w = Step.ret err w' →
      executeTrace w'.log = executeTrace w.log) ∧
    (∀ d w', bindBuild nat i uv bp w = Step.next d w' →
      executeTrace w'.log = executeTrace w.log) := by
  unfold bindBuild
  split
  · exact bindSwitch_trace _ _ _ _ _ _
  · split
    · constructor
      · intro err w' h; cases h; rw [freeBoundParameters_log]
      · intro d w' h; cases h
    · exact bindSwitch_trace _ _ _ _ _ _

/-- The loop of `bind` makes no execute call and gives no done signal. -/
theorem bindLoop_trace (stmt : OCI8Stmt) (nat : Nat → BindNative) :
    ∀ (args : List namedValue) (i : Nat) (acc : List oci8bind) (w : World),
      executeTrace (bindLoop stmt nat i args acc w).2.log = executeTrace w.log := by
  intro args
  induction args with
  | nil => intro i acc w; rfl
  | cons uv rest ih =>
    intro i acc w
    unfold bindLoop
    split
    · rename_i err w1 hb
      exact (bindBuild_trace _ _ _ _ _).1 _ _ hb
    · rename_i sbind w1 hb
      have h1 := (bindBuild_trace _ _ _ _ _).2 _ _ hb
      simp only [ociBindByName, ociBindByPos]
      split_ifs
      · rw [freeBoundParameters_log, executeTrace_snoc]
        · exact h1
        · rfl
      · rw [ih, executeTrace_snoc]
        · exact h1
        · rfl
      · rw [freeBoundParameters_log, executeTrace_snoc]
        · exact h1
        · rfl
      · rw [ih, executeTrace_snoc]
        · exact h1
        · rfl

/-- The method `bind` makes no execute call and gives no done signal, whether it
succeeds or fails. -/
theorem bind_trace (stmt : OCI8Stmt) (nat : Nat → BindNative) (args : List namedValue)
    (w : World) : executeTrace (stmt.bind nat args w).2.log = executeTrace w.log := by
  unfold OCI8Stmt.bind
  split
  · rfl
  · exact bindLoop_trace stmt nat args 0 [] w

/-- The world of a step that goes on. -/
theorem Step.world_next {α : Type} (a : α) (w : World) : (Step.next a w).world = w := rfl

/-- The world of a step that returns. -/
theorem Step.world_ret {α : Type} (e : Option GoError) (w : World) :
    (Step.ret e w : Step α).world = w := rfl

/-- A malloc arm of the describer leaves the execute trace as it is. -/
theorem mallocCol_trace (col : oci8col) (kind : Nat) (size : Int) (n : Nat) (w : World) :
    executeTrace (mallocCol col kind size n w).world.log = executeTrace w.log := by
  simp [mallocCol, Heap.alloc, Step.world]

/-- A descriptor arm of the describer leaves the execute trace as it is. -/
theorem descriptorCol_trace (cn : ColNative) (indrlenptr : Nat) (col : oci8col) (kind size : Nat)
    (w : World) :
    executeTrace (descriptorCol cn indrlenptr col kind size w).world.log = executeTrace w.log := by
  unfold descriptorCol
  simp only [Heap.alloc]
  by_cases h : cn.descriptorAllocRv ≠ OCI_SUCCESS
  · rw [if_pos h, Step.world_ret, executeTrace_snoc]
    rfl
  · rw [if_neg h, Step.world_next, executeTrace_snoc]
    rfl

/-- The switch of the describer leaves the execute trace as it is. -/
theorem defineSwitch_trace (lobBufferSize : Int) (cn : ColNative) (indrlenptr : Nat)
    (col : oci8col) (dataType dataSize : Nat) (w : World) :
    executeTrace (defineSwitch lobBufferSize cn indrlenptr col dataType dataSize w).world.log
      = executeTrace w.log := by
  unfold defineSwitch
  simp only [apply_ite Step.world, apply_ite World.log, apply_ite executeTrace, mallocCol_trace,
    descriptorCol_trace, Step.world_ret, ite_self]

/-- The body of the column loop leaves the execute trace as it is. -/
theorem describeColumn_trace (lobBufferSize : Int) (cn : ColNative) (indrlenptr i : Nat)
    (w : World) :
    executeTrace (describeColumn lobBufferSize cn indrlenptr i w).world.log
      = executeTrace w.log := by
  have hsw := defineSwitch_trace lobBufferSize cn indrlenptr { oci8col.zero with name := cn.name }
    (cn.dataType % 2 ^ 16) (toUb4 cn.dataSize) w
  unfold describeColumn
  simp only
  split_ifs
  all_goals first
    | rfl
    | (split
       · rename_i err w1 h
         rw [h] at hsw
         exact hsw
       · rename_i c w1 h
         rw [h] at hsw
         simp only [Step.world_next] at hsw
         simp only [Step.world_ret, Step.world_next]
         rw [executeTrace_snoc]
         · exact hsw
         · rfl)

/-- The column loop leaves the execute trace as it is. -/
theorem defineLoop_trace (lobBufferSize : Int) (col : Nat → ColNative) (indrlenptr : Nat) :
    ∀ (n i : Nat) (cols : List oci8col) (w : World),
      executeTrace (defineLoop lobBufferSize col indrlenptr n i cols w).world.log
        = executeTrace w.log := by
  intro n
  induction n with
  | zero => intro i cols w; rfl
  | succ n ih =>
    intro i cols w
    have hd := describeColumn_trace lobBufferSize (col i) indrlenptr i w
    unfold defineLoop
    split
    · rename_i err w1 h
      rw [h] at hd
      exact hd
    · rename_i c w1 h
      rw [h] at hd
      rw [ih]
      exact hd

/-- The column-definition phase of `query` leaves the execute trace as it is. -/
theorem queryDefine_trace (lobBufferSize : Int) (nat : ExecNative) (closeRows : Bool)
    (w : World) :
    executeTrace (queryDefine lobBufferSize nat closeRows w).2.log = executeTrace w.log := by
  unfold queryDefine
  simp only [Heap.alloc]
  split_ifs
  · rfl
  · rfl
  · have hl := defineLoop_trace lobBufferSize nat.col w.heap.next (toUb4 nat.paramCount) 0 []
      { heap := { next := w.heap.next + 1,
                  live := w.heap.live ++
                    [{ addr := w.heap.next, size := toUb4 nat.paramCount * sizeof_indrlen,
                       data := [] }] },
        log := w.log }
    split
    · rename_i err w1 h
      rw [h] at hl
      exact hl
    · rename_i cols w1 h
      rw [h] at hl
      exact hl

/-- The native execute call is traced with its iteration count and mode. -/
theorem stmtExecute_log (nat : ExecNative) (fbp : List oci8bind) (iter mode : Nat) (w : World) :
    (stmtExecute nat fbp iter mode w).log = w.log ++ [Event.stmtExecute iter mode] := rfl

/-- The execute call and the done signal in the trace of `exec`. -/
theorem exec_trace (stmt : OCI8Stmt) (nat : ExecNative) (args : List namedValue) (m : Slots)
    (w : World) (fbp : List oci8bind) (w0 : World)
    (hbind : stmt.bind nat.bind args w = ((fbp, none), w0)) :
    executeTrace (stmt.exec nat args m w).2.2.log
      = executeTrace w.log ++ [Event.stmtExecute 1 (executeMode stmt), Event.closeDone] := by
  have hb := bind_trace stmt nat.bind args w
  rw [hbind] at hb
  simp only at hb
  have key : executeTrace ((stmtExecute nat fbp 1 (executeMode stmt) w0).log ++ [Event.closeDone])
      = executeTrace w.log ++ [Event.stmtExecute 1 (executeMode stmt), Event.closeDone] := by
    rw [stmtExecute_log, executeTrace_append, executeTrace_append, hb]
    simp [executeTrace, Event.isExecuteStep]
  simp only [OCI8Stmt.exec, hbind]
  split_ifs
  all_goals first
    | (simp only [freeBoundParameters_log]; exact key)
    | (split <;> (simp only [freeBoundParameters_log]; exact key))

/-- The execute call and the done signal in the trace of `query`. -/
theorem query_trace (stmt : OCI8Stmt) (lobBufferSize : Int) (nat : ExecNative)
    (args : List namedValue) (closeRows : Bool) (w : World) (fbp : List oci8bind) (w0 : World)
    (hbind : stmt.bind nat.bind args w = ((fbp, none), w0)) (hreach : reachesExecute stmt nat) :
    executeTrace (stmt.query lobBufferSize nat args closeRows w).2.log
      = executeTrace w.log ++
        [Event.stmtExecute (if nat.stmtType % 2 ^ 16 = OCI_STMT_SELECT then 0 else 1)
          (executeMode stmt), Event.closeDone] := by
  have hb := bind_trace stmt nat.bind args w
  rw [hbind] at hb
  simp only at hb
  obtain ⟨hs, hr, hmem⟩ := hreach
  have hgs : getError nat.stmtTypeRv = none := by simp [getError, hs]
  have h1 : ¬ (stmt.conn.prefetchRows > 0 ∧ nat.prefetchRowsRv ≠ OCI_SUCCESS) :=
    fun h => h.2 (hr h.1)
  have h2 : ¬ (stmt.conn.prefetchMemory > 0 ∧ nat.prefetchMemoryRv ≠ OCI_SUCCESS) :=
    fun h => h.2 (hmem h.1)
  simp only [OCI8Stmt.query, hbind, hgs, ne_eq, not_true_eq_false, if_false]
  rw [if_neg h1, if_neg h2]
  have key : ∀ w2 : World, executeTrace w2.log = executeTrace w.log →
      executeTrace ((stmtExecute nat fbp (if nat.stmtType % 2 ^ 16 = OCI_STMT_SELECT then 0 else 1)
        (executeMode stmt) w2).log ++ [Event.closeDone])
      = executeTrace w.log ++
        [Event.stmtExecute (if nat.stmtType % 2 ^ 16 = OCI_STMT_SELECT then 0 else 1)
          (executeMode stmt), Event.closeDone] := by
    intro w2 h2
    rw [stmtExecute_log, executeTrace_append, executeTrace_append, h2]
    simp [executeTrace, Event.isExecuteStep]
  by_cases hrv : nat.executeRv ≠ OCI_SUCCESS
  · rw [if_pos hrv]
    simp only [freeBoundParameters_log]
    apply key
    split_ifs <;> first
      | exact hb
      | (simp only [executeTrace_append, hb]; simp [executeTrace, Event.isExecuteStep])
  · rw [if_neg hrv]
    simp only [freeBoundParameters_log]
    rw [queryDefine_trace]
    apply key
    split_ifs <;> first
      | exact hb
      | (simp only [executeTrace_append, hb]; simp [executeTrace, Event.isExecuteStep])

/-- The execute calls of a trace are those of its execute trace. -/
theorem executeCalls_executeTrace (l : List Event) :
    executeCalls (executeTrace l) = executeCalls l := by
  induction l with
  | nil => rfl
  | cons e rest ih =>
    cases e <;> simp_all [executeCalls, executeTrace, Event.isExecuteStep, List.filter_cons]

/-- The execute calls of a concatenation. -/
theorem executeCalls_append (l1 l2 : List Event) :
    executeCalls (l1 ++ l2) = executeCalls l1 ++ executeCalls l2 := by
  simp [executeCalls, List.filterMap_append]

/-- The done signals of a trace are those of its execute trace. -/
theorem doneSignals_executeTrace (l : List Event) :
    doneSignals (executeTrace l) = doneSignals l := by
  unfold doneSignals executeTrace
  exact List.count_filter (by rfl)

/-- C11: once `bind` has succeeded, `exec` makes exactly one native execute
call, with iteration count 1, and `query`, when its calls before the execute
call succeed, makes exactly one, with iteration count 0 if the statement type
read is SELECT and 1 for every other statement type; in both the mode is
`executeMode`, which has the commit-on-success bit exactly when the connection
is not inside a transaction (`inTransaction` is false). -/
theorem execute_arguments (stmt : OCI8Stmt) (lobBufferSize : Int) (nat : ExecNative)
    (args : List namedValue) (closeRows : Bool) (m : Slots) (w : World)
    (fbp : List oci8bind) (w0 : World) (hbind : stmt.bind nat.bind args w = ((fbp, none), w0)) :
    executeCalls (stmt.exec nat args m w).2.2.log
      = executeCalls w.log ++ [(1, executeMode stmt)] ∧
    (reachesExecute stmt nat →
      executeCalls (stmt.query lobBufferSize nat args closeRows w).2.log
        = executeCalls w.log ++
          [(if nat.stmtType % 2 ^ 16 = OCI_STMT_SELECT then 0 else 1, executeMode stmt)]) ∧
    (executeMode stmt &&& OCI_COMMIT_ON_SUCCESS = OCI_COMMIT_ON_SUCCESS ↔
      stmt.conn.inTransaction = false) := by
  refine ⟨?_, ?_, ?_⟩
  · rw [← executeCalls_executeTrace, exec_trace stmt nat args m w fbp w0 hbind,
      executeCalls_append, executeCalls_executeTrace]
    rfl
  · intro hreach
    rw [← executeCalls_executeTrace,
      query_trace stmt lobBufferSize nat args closeRows w fbp w0 hbind hreach,
      executeCalls_append, executeCalls_executeTrace]
    rfl
  · unfold executeMode
    cases stmt.conn.inTransaction <;> decide

/-- C13: once `bind` has succeeded, whatever the status of the execute call, the
run of `exec` adds to the trace exactly the native execute call followed by
one done signal, so the returned trace has one more done signal, given after
the execute call; the same holds for `query` when its calls before the execute
call succeed; and in the watcher goroutine no `OCIBreak` follows a receive from
`done`. -/
theorem done_signal_once (stmt : OCI8Stmt) (lobBufferSize : Int) (nat : ExecNative)
    (args : List namedValue) (closeRows : Bool) (m : Slots) (w : World)
    (fbp : List oci8bind) (w0 : World) (hbind : stmt.bind nat.bind args w = ((fbp, none), w0)) :
    (executeTrace (stmt.exec nat args m w).2.2.log
        = executeTrace w.log ++ [Event.stmtExecute 1 (executeMode stmt), Event.closeDone] ∧
      doneSignals (stmt.exec nat args m w).2.2.log = doneSignals w.log + 1) ∧
    (reachesExecute stmt nat →
      executeTrace (stmt.query lobBufferSize nat args closeRows w).2.log
        = executeTrace w.log ++
          [Event.stmtExecute (if nat.stmtType % 2 ^ 16 = OCI_STMT_SELECT then 0 else 1)
            (executeMode stmt), Event.closeDone] ∧
      doneSignals (stmt.query lobBufferSize nat args closeRows w).2.log = doneSignals w.log + 1) ∧
    (∀ (r : WatcherRun) (pre post : List WatcherStep),
      watcher r = pre ++ WatcherStep.recvDone :: post → WatcherStep.ociBreak ∉ post) := by
  have hcount : ∀ (l : List Event) (i md : Nat),
      doneSignals (executeTrace l ++ [Event.stmtExecute i md, Event.closeDone])
        = doneSignals l + 1 := by
    intro l i md
    unfold doneSignals
    rw [List.count_append]
    have : List.count Event.closeDone (executeTrace l) = List.count Event.closeDone l :=
      doneSignals_executeTrace l
    rw [this]
    simp [List.count_cons]
  refine ⟨⟨exec_trace stmt nat args m w fbp w0 hbind, ?_⟩, ?_, ?_⟩
  · rw [← doneSignals_executeTrace, exec_trace stmt nat args m w fbp w0 hbind]
    exact hcount _ _ _
  · intro hreach
    refine ⟨query_trace stmt lobBufferSize nat args closeRows w fbp w0 hbind hreach, ?_⟩
    rw [← doneSignals_executeTrace,
      query_trace stmt lobBufferSize nat args closeRows w fbp w0 hbind hreach]
    exact hcount _ _ _
  · intro r pre post h
    unfold watcher at h
    split_ifs at h
    · cases pre with
      | nil =>
        simp only [List.nil_append, List.cons.injEq, true_and] at h
        rw [← h]; simp
      | cons a pre' => simp at h
    · cases pre with
      | nil => simp at h
      | cons a pre' =>
        cases pre' with
        | nil =>
          simp only [List.cons_append, List.nil_append, List.cons.injEq, true_and] at h
          rw [← h.2]; simp
        | cons b pre'' => simp at h
    · cases pre with
      | nil => simp at h
      | cons a pre' =>
        cases pre' with
        | nil => simp at h
        | cons b pre'' => simp at h

/-! ### `outputBoundParameters`: string slots -/

/-- After an assignment the variable holds the value assigned. -/
theorem Slots.get_set_same (m : Slots) (addr : Nat) (x : GoValue) :
    (m.set addr x).get addr = some x := by
  simp [Slots.get, Slots.set]

/-- An assignment leaves every other variable as it is. -/
theorem Slots.get_set_other (m : Slots) (addr a : Nat) (x : GoValue) (h : a ≠ addr) :
    (m.set addr x).get a = m.get a := by
  simp [Slots.get, Slots.set, List.find?, Ne.symm h]

/-- The slots the loop body leaves do not depend on the index of the
descriptor (the index only names the column in the error text). -/
theorem outputOne_snd_index (i j : Nat) (col : oci8bind) (h : Heap) (m : Slots) :
    (outputOne i col h m).2 = (outputOne j col h m).2 := by
  unfold outputOne
  cases col.pbuf with
  | none => rfl
  | some p =>
    simp only
    cases col.out with
    | none => rfl
    | some dest =>
      cases dest with
      | nilPtr b => cases b <;> rfl
      | val v => rfl
      | ptr addr elem =>
        cases elem with
        | float64 b => simp only; split <;> rfl
        | float32 b => simp only; split <;> rfl
        | str s => rfl
        | integer k v => rfl
        | bool b => rfl
        | nil => rfl
        | bytes b => rfl
        | time t => rfl
        | other r c => rfl

/-- On descriptors whose nil-pointer slot has no buffer the output loop runs its
body on every descriptor in order and returns no error. -/
theorem outputLoop_foldl (h : Heap) : ∀ (cols : List oci8bind) (i : Nat) (m : Slots),
    (∀ d ∈ cols, ∀ b, d.out = some (Dest.nilPtr b) → d.pbuf = none) →
    outputLoop h i cols m
      = (Outcome.ret (some ()) none, cols.foldl (fun m col => (outputOne 0 col h m).2) m) := by
  intro cols
  induction cols with
  | nil => intro i m _; rfl
  | cons col rest ih =>
    intro i m hall
    obtain ⟨m1, h1⟩ := outputOne_ok i col h m (hall col (List.mem_cons_self _ _))
    have h0 : (outputOne 0 col h m).2 = m1 := by
      rw [outputOne_snd_index 0 i, h1]
    unfold outputLoop
    rw [h1]
    simp only [List.foldl_cons, h0]
    exact ih (i + 1) m1 (fun d hd => hall d (List.mem_cons_of_mem _ hd))

/-- C12: in `outputBoundParameters`, for a descriptor with a non-nil buffer
whose output slot points to a string, the loop body returns no error and sets
the slot to the empty string if the indicator is -1 and to the null-terminated
text of the buffer otherwise, leaving every other slot as it is; for a
descriptor with a nil buffer or without an output slot it leaves every slot as
it is; and the method runs that body on every descriptor in order (for
descriptors as `bind` makes them, whose nil-pointer slots have no buffer). -/
theorem output_string_slot (h : Heap) :
    (∀ (i : Nat) (col : oci8bind) (m : Slots) (p addr : Nat) (s : GoString),
      col.pbuf = some p → col.out = some (Dest.ptr addr (.str s)) →
      outputOne i col h m
        = (Outcome.ret (some ()) none,
           m.set addr (.str (if col.indicator = -1 then [] else goString h p))) ∧
      (outputOne i col h m).2.get addr
        = some (.str (if col.indicator = -1 then [] else goString h p)) ∧
      ∀ a, a ≠ addr → (outputOne i col h m).2.get a = m.get a) ∧
    (∀ (i : Nat) (col : oci8bind) (m : Slots), col.pbuf = none ∨ col.out = none →
      outputOne i col h m = (Outcome.ret (some ()) none, m)) ∧
    (∀ (cols : List oci8bind) (m : Slots),
      (∀ d ∈ cols, ∀ b, d.out = some (Dest.nilPtr b) → d.pbuf = none) →
      OCI8Stmt.outputBoundParameters cols h m
        = (Outcome.ret (some ()) none, cols.foldl (fun m col => (outputOne 0 col h m).2) m)) := by
  refine ⟨?_, ?_, ?_⟩
  · intro i col m p addr s hp ho
    have heq : outputOne i col h m
        = (Outcome.ret (some ()) none,
           m.set addr (.str (if col.indicator = -1 then [] else goString h p))) := by
      unfold outputOne
      rw [hp, ho]
      simp only
      split <;> rfl
    refine ⟨heq, ?_, ?_⟩
    · rw [heq]; exact Slots.get_set_same _ _ _
    · intro a ha
      rw [heq]; exact Slots.get_set_other _ _ _ _ ha
  · intro i col m hcol
    unfold outputOne
    rcases hcol with hp | ho
    · rw [hp]
    · rw [ho]
      cases col.pbuf <;> rfl
  · intro cols m hall
    exact outputLoop_foldl h cols 0 m hall

/-! ### `bind` and `outputBoundParameters`: float and bool slots -/

/-- An allocation keeps the blocks there are. -/
theorem Heap.has_alloc_old (h : Heap) (size : Nat) (data : List Nat) (p n : Nat)
    (hp : h.has p n) : (h.alloc size data).2.has p n := by
  obtain ⟨b, hb, h1, h2⟩ := hp
  exact ⟨b, by simp [Heap.alloc, hb], h1, h2⟩

/-- An allocation adds a block of the size asked for at the address returned. -/
theorem Heap.has_alloc_new (h : Heap) (size : Nat) (data : List Nat) :
    (h.alloc size data).2.has (h.alloc size data).1 size :=
  ⟨{ addr := h.next, size := size, data := data }, by simp [Heap.alloc], rfl, rfl⟩

/-- A write keeps the address and size of every block. -/
theorem Heap.has_write (h : Heap) (q off : Nat) (bytes : List Nat) (p n : Nat)
    (hp : h.has p n) : (h.write q off bytes).has p n := by
  obtain ⟨b, hb, rfl, rfl⟩ := hp
  unfold Heap.write Heap.has
  simp only [List.mem_map]
  by_cases hq : b.addr = q
  · exact ⟨_, ⟨b, hb, rfl⟩, by simp [hq], by simp [hq]⟩
  · exact ⟨_, ⟨b, hb, rfl⟩, by simp [hq], by simp [hq]⟩

/-- The timestamp arm, when it goes on, keeps the blocks there are. -/
theorem bindTime_has {nat : BindNative} {bp : List oci8bind} {sbind d : oci8bind} {v : GoTime}
    {w w' : World} (h : bindTime nat bp sbind v w = Step.next d w') (p n : Nat)
    (hp : w.heap.has p n) : w'.heap.has p n := by
  have ha := fun size => Heap.has_alloc_old w.heap size [] p n hp
  simp only [bindTime] at h
  split_ifs at h <;> first
    | (cases h; done)
    | (cases h
       first
         | exact Heap.has_write _ _ _ _ _ _ (Heap.has_write _ _ _ _ _ _ (ha _))
         | exact Heap.has_write _ _ _ _ _ _ (ha _))

/-- The type switch, when it goes on, keeps the blocks there are. -/
theorem bindSwitch_has {nat : BindNative} {i : Nat} {bp : List oci8bind} {sbind d : oci8bind}
    {vv : GoValue} {w w' : World} (h : bindSwitch nat i bp sbind vv w = Step.next d w')
    (p n : Nat) (hp : w.heap.has p n) : w'.heap.has p n := by
  cases vv with
  | time t => exact bindTime_has h p n hp
  | integer k v =>
    simp only [bindSwitch] at h
    split at h
    · cases h
    · cases h
      exact Heap.has_alloc_old _ _ _ _ _ hp
  | other r c =>
    simp only [bindSwitch] at h
    split at h
    · cases h; exact hp
    · cases h; exact Heap.has_alloc_old _ _ _ _ _ hp
  | float32 b =>
    simp only [bindSwitch, binaryWrite] at h
    cases h; exact Heap.has_alloc_old _ _ _ _ _ hp
  | float64 b =>
    simp only [bindSwitch, binaryWrite] at h
    cases h; exact Heap.has_alloc_old _ _ _ _ _ hp
  | nil =>
    simp only [bindSwitch] at h
    cases h; exact hp
  | bytes b =>
    simp only [bindSwitch] at h
    cases h; exact Heap.has_alloc_old _ _ _ _ _ hp
  | bool b =>
    simp only [bindSwitch] at h
    cases h; exact Heap.has_alloc_old _ _ _ _ _ hp
  | str s =>
    simp only [bindSwitch] at h
    cases h; exact Heap.has_alloc_old _ _ _ _ _ hp

/-- The loop body of `bind`, when it goes on, keeps the blocks there are. -/
theorem bindBuild_has {nat : BindNative} {i : Nat} {uv : namedValue} {bp : List oci8bind}
    {d : oci8bind} {w w' : World} (h : bindBuild nat i uv bp w = Step.next d w')
    (p n : Nat) (hp : w.heap.has p n) : w'.heap.has p n := by
  unfold bindBuild at h
  split at h
  · exact bindSwitch_has h p n hp
  · split at h
    · cases h
    · exact bindSwitch_has h p n hp

/-- When the loop of `bind` ends without error, the blocks there were are kept,
and a property of argument, descriptor and heap that every step establishes and
that later allocations keep holds for every argument in the final heap. -/
theorem bindLoop_heap (stmt : OCI8Stmt) (nat : Nat → BindNative)
    (R : namedValue → oci8bind → Heap → Prop)
    (hstep : ∀ j uv bp w0 d w1, bindBuild (nat j) j uv bp w0 = Step.next d w1 → R uv d w1.heap)
    (hmono : ∀ uv d h h', R uv d h → (∀ p n, h.has p n → h'.has p n) → R uv d h') :
    ∀ (args : List namedValue) (i : Nat) (acc : List oci8bind) (w : World)
      (bound : List oci8bind) (w' : World),
      bindLoop stmt nat i args acc w = ((bound, none), w') →
      (∀ p n, w.heap.has p n → w'.heap.has p n) ∧
      ∃ ds, bound = acc ++ ds ∧ List.Forall₂ (fun uv d => R uv d w'.heap) args ds := by
  intro args
  induction args with
  | nil =>
    intro i acc w bound w' h
    simp [bindLoop] at h
    refine ⟨?_, [], by simp [h.1], List.Forall₂.nil⟩
    rw [← h.2]; exact fun _ _ hp => hp
  | cons uv rest ih =>
    intro i acc w bound w' h
    unfold bindLoop at h
    split at h
    · rename_i err w1 hb
      have := bindBuild_ret_some hb
      simp at h
      exact absurd h.1.2 this
    · rename_i sbind w1 hb
      simp only [ociBindByName, ociBindByPos] at h
      have hm1 : ∀ p n, w.heap.has p n → w1.heap.has p n := fun p n => bindBuild_has hb p n
      have hr1 := hstep i uv acc w sbind w1 hb
      split_ifs at h
      · simp at h; rename_i he; exact absurd h.1.2 he
      · obtain ⟨hm2, ds, hds, hf⟩ := ih _ _ _ _ _ h
        exact ⟨fun p n hp => hm2 p n (hm1 p n hp), sbind :: ds, by simp [hds],
          List.Forall₂.cons (hmono _ _ _ _ hr1 hm2) hf⟩
      · simp at h; rename_i he; exact absurd h.1.2 he
      · obtain ⟨hm2, ds, hds, hf⟩ := ih _ _ _ _ _ h
        exact ⟨fun p n hp => hm2 p n (hm1 p n hp), sbind :: ds, by simp [hds],
          List.Forall₂.cons (hmono _ _ _ _ hr1 hm2) hf⟩

/-- The loop body of `bind` on an output parameter whose slot points to a float
or a bool: the length recorded and the block allocated have the number of bytes
the unmarshaler reads. -/
theorem bindBuild_slot {nat : BindNative} {j : Nat} {uv : namedValue} {bp : List oci8bind}
    {d : oci8bind} {w0 w1 : World} (h : bindBuild nat j uv bp w0 = Step.next d w1)
    (addr : Nat) (elem : GoValue) (n : Nat)
    (hv : uv.Value = .out (some (.ptr addr elem))) (hn : slotBytes elem = some n) :
    d.clen = n ∧ d.out = some (.ptr addr elem) ∧ ∃ p, d.pbuf = some p ∧ w1.heap.has p n := by
  have h8 : toSb4 8 = 8 := by decide
  have h1 : toSb4 1 = 1 := by decide
  unfold bindBuild at h
  rw [hv] at h
  simp only [convertValue] at h
  cases elem with
  | float32 b =>
    simp only [slotBytes, Option.some.injEq] at hn
    subst hn
    simp only [convertBase, bindSwitch, binaryWrite, CByte] at h
    cases h
    refine ⟨by simp [leBytes_length, h8], rfl, _, rfl, ?_⟩
    have := Heap.has_alloc_new w0.heap (leBytes 8 (float32to64 b)).length (leBytes 8 (float32to64 b))
    simpa [leBytes_length] using this
  | float64 b =>
    simp only [slotBytes, Option.some.injEq] at hn
    subst hn
    simp only [convertBase, bindSwitch, binaryWrite, CByte] at h
    cases h
    refine ⟨by simp [leBytes_length, h8], rfl, _, rfl, ?_⟩
    have := Heap.has_alloc_new w0.heap (leBytes 8 b).length (leBytes 8 b)
    simpa [leBytes_length] using this
  | bool b =>
    simp only [slotBytes, Option.some.injEq] at hn
    subst hn
    simp only [convertBase, bindSwitch, CByte] at h
    cases h
    refine ⟨by simp [h1], rfl, _, rfl, ?_⟩
    have := Heap.has_alloc_new w0.heap (if b then [1] else [0]).length (if b then [1] else [0])
    cases b <;> simpa using this
  | nil => simp [slotBytes] at hn
  | bytes b => simp [slotBytes] at hn
  | time t => simp [slotBytes] at hn
  | str s => simp [slotBytes] at hn
  | integer k v => simp [slotBytes] at hn
  | other r c => simp [slotBytes] at hn

/-- For a float or bool slot the loop body of `outputBoundParameters` depends on
the heap only through the first `slotBytes` bytes of the buffer, and it returns
no error. -/
theorem outputOne_reads (col : oci8bind) (p addr : Nat) (elem : GoValue) (n : Nat)
    (hp : col.pbuf = some p) (ho : col.out = some (.ptr addr elem))
    (hn : slotBytes elem = some n) :
    (∀ (h1 h2 : Heap) (idx : Nat) (m : Slots), readBuf h1 p n = readBuf h2 p n →
      outputOne idx col h1 m = outputOne idx col h2 m) ∧
    (∀ (h : Heap) (idx : Nat) (m : Slots),
      (outputOne idx col h m).1 = Outcome.ret (some ()) none) := by
  constructor
  · intro h1 h2 idx m hr
    unfold outputOne
    rw [hp, ho]
    cases elem with
    | float32 b =>
      simp only [slotBytes, Option.some.injEq] at hn
      subst hn
      simp only [hr]
    | float64 b =>
      simp only [slotBytes, Option.some.injEq] at hn
      subst hn
      simp only [hr]
    | bool b =>
      simp only [slotBytes, Option.some.injEq] at hn
      subst hn
      simp only [hr]
    | nil => simp [slotBytes] at hn
    | bytes b => simp [slotBytes] at hn
    | time t => simp [slotBytes] at hn
    | str s => simp [slotBytes] at hn
    | integer k v => simp [slotBytes] at hn
    | other r c => simp [slotBytes] at hn
  · intro h idx m
    obtain ⟨m', hm'⟩ := outputOne_ok idx col h m (by intro b hb; rw [ho] at hb; cases hb)
    rw [hm']

/-- The native execute call keeps the address and size of every block: it only
writes into the bound buffers. -/
theorem stmtExecute_has (e : ExecNative) (fbp : List oci8bind) (iter mode : Nat) (w : World)
    (p n : Nat) (hp : w.heap.has p n) : (stmtExecute e fbp iter mode w).heap.has p n := by
  unfold stmtExecute
  simp only
  generalize fbp.enum = l
  generalize w.heap = h at hp
  induction l generalizing h with
  | nil => exact hp
  | cons ib rest ih =>
    simp only [List.foldl_cons]
    apply ih
    split
    · exact Heap.has_write _ _ _ _ _ _ hp
    · exact hp

/-- C14: when `bind` succeeds, for every argument that is an output parameter
whose slot points to a `float32`, `float64` or `bool`, with `n` the number of
bytes `outputBoundParameters` reads for that slot (8, 8, 1): the descriptor's
`clen` is `n`, its buffer is a live block of `n` bytes, also after the native
execute call, the result of the unmarshaler depends on the heap only through
the first `n` bytes of that buffer, and the unmarshaler returns no error on it
(the float decode-error branch is not taken). -/
theorem output_reads_within_buffer (stmt : OCI8Stmt) (nat : Nat → BindNative)
    (args : List namedValue) (w : World) (bound : List oci8bind) (w' : World)
    (hbind : stmt.bind nat args w = ((bound, none), w')) :
    ∀ (i : Nat) (hi : i < args.length) (hb : i < bound.length) (addr : Nat) (elem : GoValue)
      (n : Nat),
      (args.get ⟨i, hi⟩).Value = .out (some (.ptr addr elem)) → slotBytes elem = some n →
      (bound.get ⟨i, hb⟩).clen = n ∧
      ∃ p, (bound.get ⟨i, hb⟩).pbuf = some p ∧ w'.heap.has p n ∧
        (∀ (e : ExecNative) (iter mode : Nat), (stmtExecute e bound iter mode w').heap.has p n) ∧
        (∀ (h1 h2 : Heap) (idx : Nat) (m : Slots), readBuf h1 p n = readBuf h2 p n →
          outputOne idx (bound.get ⟨i, hb⟩) h1 m = outputOne idx (bound.get ⟨i, hb⟩) h2 m) ∧
        (∀ (h : Heap) (idx : Nat) (m : Slots),
          (outputOne idx (bound.get ⟨i, hb⟩) h m).1 = Outcome.ret (some ()) none) := by
  intro i hi hb addr elem n hv hn
  have hne : ¬ args.length = 0 := by omega
  unfold OCI8Stmt.bind at hbind
  rw [if_neg hne] at hbind
  obtain ⟨-, ds, hds, hf⟩ := bindLoop_heap stmt nat
    (fun uv d h => ∀ addr elem n, uv.Value = .out (some (.ptr addr elem)) →
      slotBytes elem = some n →
      d.clen = n ∧ d.out = some (.ptr addr elem) ∧ ∃ p, d.pbuf = some p ∧ h.has p n)
    (fun j uv bp w0 d w1 hstep addr elem n hv hn => bindBuild_slot hstep addr elem n hv hn)
    (fun uv d h h' hr hm addr elem n hv hn => by
      obtain ⟨h1, h2, p, h3, h4⟩ := hr addr elem n hv hn
      exact ⟨h1, h2, p, h3, hm p n h4⟩)
    args 0 [] w bound w' hbind
  simp only [List.nil_append] at hds
  subst hds
  rw [List.forall₂_iff_get] at hf
  obtain ⟨hclen, hout, p, hp, hhas⟩ := hf.2 i hi hb addr elem n hv hn
  have hreads := outputOne_reads (bound.get ⟨i, hb⟩) p addr elem n hp hout hn
  exact ⟨hclen, p, hp, hhas, fun e iter mode => stmtExecute_has e bound iter mode w' p n hhas,
    hreads.1, hreads.2⟩

/-! ### Evaluations for the execute call, the done signal and the output slots -/

/-- Witness of C11: one `int64` argument on a connection outside a transaction,
the statement type read being SELECT: `exec` calls execute with (1, commit on
success), `query` with (0, commit on success). -/
theorem execute_arguments_witness :
    executeCalls (openStmt.exec ExecNative.allOk [arg 1 (.integer .int64 5)] []
        World.empty).2.2.log = [(1, OCI_COMMIT_ON_SUCCESS)] ∧
    executeCalls (openStmt.query 4000 ExecNative.allOk [arg 1 (.integer .int64 5)] false
        World.empty).2.log = [(0, OCI_COMMIT_ON_SUCCESS)] := by
  have h := execute_arguments openStmt 4000 ExecNative.allOk [arg 1 (.integer .int64 5)] false []
    World.empty _ _ rfl
  exact ⟨h.1, h.2.1 ⟨rfl, by decide, by decide⟩⟩

/-- Witness of C13: an execute call that reports OCI_ERROR (the failure path) in
`exec` and one that reports success in `query`; and a watcher that meets the
cancellation first and then finds `done` closed. -/
theorem done_signal_once_witness :
    executeTrace (openStmt.exec { ExecNative.allOk with executeRv := OCI_ERROR }
        [arg 1 (.integer .int64 5)] [] World.empty).2.2.log
      = [Event.stmtExecute 1 OCI_COMMIT_ON_SUCCESS, Event.closeDone] ∧
    doneSignals (openStmt.query 4000 ExecNative.allOk [arg 1 (.integer .int64 5)] false
        World.empty).2.log = 1 ∧
    (watcher { firstDone := false, doneClosed := true }
        = [WatcherStep.recvCancel] ++ WatcherStep.recvDone :: [] ∧
      WatcherStep.ociBreak ∉ ([] : List WatcherStep)) := by
  have h1 := done_signal_once openStmt 4000 { ExecNative.allOk with executeRv := OCI_ERROR }
    [arg 1 (.integer .int64 5)] false [] World.empty _ _ rfl
  have h2 := done_signal_once openStmt 4000 ExecNative.allOk
    [arg 1 (.integer .int64 5)] false [] World.empty _ _ rfl
  exact ⟨h1.1.1, (h2.2.1 ⟨rfl, by decide, by decide⟩).2,
    rfl, h2.2.2 { firstDone := false, doneClosed := true } [WatcherStep.recvCancel] [] rfl⟩

/-- Witness of C12: a string slot at address 9 over the buffer `hi\0`, once with
indicator 0 and once with the null sentinel. -/
theorem output_string_slot_witness :
    outputOne 0 { kind := SQLT_STR, clen := 3, pbuf := some 1, indicator := 0,
                  out := some (.ptr 9 (.str [])) }
        { next := 2, live := [{ addr := 1, size := 3, data := [104, 105, 0] }] } []
      = (Outcome.ret (some ()) none, [(9, GoValue.str [104, 105])]) ∧
    outputOne 0 { kind := SQLT_STR, clen := 3, pbuf := some 1, indicator := -1,
                  out := some (.ptr 9 (.str [])) }
        { next := 2, live := [{ addr := 1, size := 3, data := [104, 105, 0] }] } []
      = (Outcome.ret (some ()) none, [(9, GoValue.str [])]) :=
  ⟨((output_string_slot
      { next := 2, live := [{ addr := 1, size := 3, data := [104, 105, 0] }] }).1 0
      { kind := SQLT_STR, clen := 3, pbuf := some 1, indicator := 0,
        out := some (.ptr 9 (.str [])) } [] 1 9 [] rfl rfl).1,
   ((output_string_slot
      { next := 2, live := [{ addr := 1, size := 3, data := [104, 105, 0] }] }).1 0
      { kind := SQLT_STR, clen := 3, pbuf := some 1, indicator := -1,
        out := some (.ptr 9 (.str [])) } [] 1 9 [] rfl rfl).1⟩

/-- Witness of C14: a `float32` slot and a `bool` slot as output parameters; the
descriptors have lengths 8 and 1. -/
theorem output_reads_within_buffer_witness :
    (openStmt.bind (fun _ => BindNative.allOk) slotArgs World.empty).1
      = ([{ kind := SQLT_BDOUBLE, clen := 8, pbuf := some 1, indicator := 0,
            out := some (.ptr 9 (.float32 0x3fc00000)) },
          { kind := SQLT_INT, clen := 1, pbuf := some 2, indicator := 0,
            out := some (.ptr 10 (.bool true)) }], none) ∧
    ((openStmt.bind (fun _ => BindNative.allOk) slotArgs World.empty).1.1.get
        ⟨0, by decide⟩).clen = ((8 : Nat) : Int) ∧
    ((openStmt.bind (fun _ => BindNative.allOk) slotArgs World.empty).1.1.get
        ⟨1, by decide⟩).clen = ((1 : Nat) : Int) :=
  ⟨rfl,
   (output_reads_within_buffer openStmt (fun _ => BindNative.allOk) slotArgs World.empty
      (openStmt.bind (fun _ => BindNative.allOk) slotArgs World.empty).1.1
      (openStmt.bind (fun _ => BindNative.allOk) slotArgs World.empty).2 rfl
      0 (by decide) (by decide) 9 (.float32 0x3fc00000) 8 rfl rfl).1,
   (output_reads_within_buffer openStmt (fun _ => BindNative.allOk) slotArgs World.empty
      (openStmt.bind (fun _ => BindNative.allOk) slotArgs World.empty).1.1
      (openStmt.bind (fun _ => BindNative.allOk) slotArgs World.empty).2 rfl
      1 (by decide) (by decide) 10 (.bool true) 1 rfl rfl).1⟩

end Oci8
